import Mathlib

/-!
Verification of the Bahá'í calendar backend (`app/main.py`).

The core of the program is pure: Python `datetime.date` arithmetic, a curated
Twin Holy Days table with a cyclical estimator, and two pipelines
(`get_bahai_events_for_gregorian_year`, `get_bahai_months`) that are
parametric in an external calendar-math collaborator (`badidatetime`'s
`BahaiCalendar`), a translation table, and two data files not part of the
core source (`MONTHNAMES`, `BAHAI_EVENTS`).  We embed the pure parts
faithfully and quantify over the collaborators.

Python `datetime.date` is modelled by its proleptic Gregorian ordinal
(`date.toordinal()`), the linearisation Python itself uses for comparison and
`timedelta` arithmetic; constructors and parsers validate exactly as CPython
does and return `Option`, `none` standing for a raised exception.
-/

set_option maxRecDepth 100000

namespace BadiBackend

/-- Gregorian leap-year test (Python `datetime._is_leap`). -/
def isLeap (y : Int) : Bool := y % 4 == 0 && (y % 100 != 0 || y % 400 == 0)

/-- Length of month `m` of year `y` (Python `datetime._days_in_month`). -/
def daysInMonth (y m : Int) : Int :=
  if m = 2 then (if isLeap y then 29 else 28)
  else if m = 4 ∨ m = 6 ∨ m = 9 ∨ m = 11 then 30
  else 31

/-- Cumulative days before month `m` in year `y` (Python `datetime._days_before_month`). -/
def daysBeforeMonth (y m : Int) : Int :=
  (if m ≤ 1 then 0 else if m = 2 then 31 else if m = 3 then 59 else if m = 4 then 90
   else if m = 5 then 120 else if m = 6 then 151 else if m = 7 then 181
   else if m = 8 then 212 else if m = 9 then 243 else if m = 10 then 273
   else if m = 11 then 304 else 334)
  + (if 2 < m ∧ isLeap y then 1 else 0)

/-- Days before January 1 of year `y` (Python `datetime._days_before_year`). -/
def daysBeforeYear (y : Int) : Int :=
  365 * (y - 1) + (y - 1) / 4 - (y - 1) / 100 + (y - 1) / 400

/-- Python `date.toordinal()` (`datetime._ymd2ord`): 0001-01-01 is day 1. -/
def toOrdinal (y m d : Int) : Int := daysBeforeYear y + daysBeforeMonth y m + d

/-- A Python `datetime.date`, represented by its proleptic Gregorian ordinal. -/
abbrev PyDate := Int

/-- Python `date(y, m, d)` constructor: validates all ranges, raising
(`none`) otherwise. -/
def mkDate (y m d : Int) : Option PyDate :=
  if 1 ≤ y ∧ y ≤ 9999 ∧ 1 ≤ m ∧ m ≤ 12 ∧ 1 ≤ d ∧ d ≤ daysInMonth y m then
    some (toOrdinal y m d)
  else none

/-- Python `date.fromordinal` (`datetime._ord2ymd`): recover (year, month, day). -/
def fromOrdinal (o : PyDate) : Int × Int × Int :=
  let n0 := o - 1
  let n400 := n0 / 146097
  let r400 := n0 % 146097
  let n100 := r400 / 36524
  let r100 := r400 % 36524
  let n4 := r100 / 1461
  let r4 := r100 % 1461
  let n1 := r4 / 365
  let n := r4 % 365
  if n1 = 4 ∨ n100 = 4 then
    (n400 * 400 + n100 * 100 + n4 * 4 + n1, 12, 31)
  else
    let year := n400 * 400 + n100 * 100 + n4 * 4 + n1 + 1
    let month := (n + 50) / 32
    let preceding := daysBeforeMonth year month
    if n < preceding then
      (year, month - 1, n - daysBeforeMonth year (month - 1) + 1)
    else
      (year, month, n - preceding + 1)

/-- Python `date + timedelta(days := k)`: ordinal addition, checked against the
supported range `[1, date.max.toordinal()]` (outside it Python raises). -/
def addDays (o : PyDate) (k : Int) : Option PyDate :=
  if 1 ≤ o + k ∧ o + k ≤ 3652059 then some (o + k) else none

/-- Python `date.replace(year := y)`: rebuild from the new year and the old
month and day, re-validating through the constructor. -/
def replaceYear (o : PyDate) (y : Int) : Option PyDate :=
  let (_, m, d) := fromOrdinal o
  mkDate y m d

def digitVal (c : Char) : Option Int :=
  if 48 ≤ c.toNat ∧ c.toNat ≤ 57 then some ((c.toNat : Int) - 48) else none

def digitChar (n : Int) : Char := Char.ofNat (48 + n.toNat)

/-- Python `date.isoformat()` (and `strftime("%Y-%m-%d")`): zero-padded
`YYYY-MM-DD`. -/
def isoFormat (o : PyDate) : String :=
  let c := fromOrdinal o
  let y := c.1
  let m := c.2.1
  let d := c.2.2
  ⟨[digitChar (y / 1000 % 10), digitChar (y / 100 % 10),
    digitChar (y / 10 % 10), digitChar (y % 10), '-',
    digitChar (m / 10 % 10), digitChar (m % 10), '-',
    digitChar (d / 10 % 10), digitChar (d % 10)]⟩

/-- Python `date.fromisoformat` restricted to the canonical `YYYY-MM-DD`
form, the only form this program produces or stores; validates through the
`date` constructor. -/
def fromIso (s : String) : Option PyDate :=
  match s.data with
  | [y1, y2, y3, y4, h1, m1, m2, h2, d1, d2] =>
    if h1 = '-' ∧ h2 = '-' then
      match digitVal y1, digitVal y2, digitVal y3, digitVal y4,
            digitVal m1, digitVal m2, digitVal d1, digitVal d2 with
      | some a, some b, some c, some d, some e, some f, some g, some h =>
        mkDate (1000 * a + 100 * b + 10 * c + d) (10 * e + f) (10 * g + h)
      | _, _, _, _, _, _, _, _ => none
    else none
  | _ => none

/-- `TWIN_HOLY_DAYS` from `main.py`, verbatim:
`year: (Birth of the Báb, Birth of Bahá'u'lláh)`. -/
def TWIN_HOLY_DAYS : List (Int × String × String) := [
  (2015, ("2015-10-29", "2015-10-30")),
  (2016, ("2016-10-17", "2016-10-18")),
  (2017, ("2017-11-06", "2017-11-07")),
  (2018, ("2018-10-26", "2018-10-27")),
  (2019, ("2019-10-15", "2019-10-16")),
  (2020, ("2020-11-02", "2020-11-03")),
  (2021, ("2021-10-22", "2021-10-23")),
  (2022, ("2022-10-11", "2022-10-12")),
  (2023, ("2023-10-30", "2023-10-31")),
  (2024, ("2024-10-18", "2024-10-19")),
  (2025, ("2025-10-22", "2025-10-23")),
  (2026, ("2026-11-10", "2026-11-11")),
  (2027, ("2027-10-30", "2027-10-31")),
  (2028, ("2028-10-18", "2028-10-19")),
  (2029, ("2029-11-06", "2029-11-07")),
  (2030, ("2030-10-26", "2030-10-27")),
  (2031, ("2031-10-15", "2031-10-16")),
  (2032, ("2032-11-02", "2032-11-03")),
  (2033, ("2033-10-22", "2033-10-23")),
  (2034, ("2034-10-11", "2034-10-12")),
  (2035, ("2035-10-30", "2035-10-31")),
  (2036, ("2036-10-18", "2036-10-19")),
  (2037, ("2037-11-06", "2037-11-07")),
  (2038, ("2038-10-26", "2038-10-27")),
  (2039, ("2039-10-15", "2039-10-16")),
  (2040, ("2040-11-02", "2040-11-03")),
  (2041, ("2041-10-22", "2041-10-23")),
  (2042, ("2042-10-11", "2042-10-12")),
  (2043, ("2043-10-30", "2043-10-31")),
  (2044, ("2044-10-18", "2044-10-19")),
  (2045, ("2045-11-06", "2045-11-07")),
  (2046, ("2046-10-26", "2046-10-27")),
  (2047, ("2047-10-15", "2047-10-16")),
  (2048, ("2048-11-02", "2048-11-03")),
  (2049, ("2049-10-22", "2049-10-23")),
  (2050, ("2050-10-11", "2050-10-12")),
  (2051, ("2051-10-30", "2051-10-31")),
  (2052, ("2052-10-18", "2052-10-19")),
  (2053, ("2053-11-06", "2053-11-07")),
  (2054, ("2054-10-26", "2054-10-27")),
  (2055, ("2055-10-15", "2055-10-16")),
  (2056, ("2056-11-02", "2056-11-03")),
  (2057, ("2057-10-22", "2057-10-23")),
  (2058, ("2058-10-11", "2058-10-12")),
  (2059, ("2059-10-30", "2059-10-31")),
  (2060, ("2060-10-18", "2060-10-19")),
  (2061, ("2061-11-06", "2061-11-07")),
  (2062, ("2062-10-26", "2062-10-27")),
  (2063, ("2063-10-15", "2063-10-16")),
  (2064, ("2064-11-02", "2064-11-03"))]

/-- `min(TWIN_HOLY_DAYS.keys(), key := lambda y: abs(y - year))`: Python's
`min` keeps the first minimiser in iteration (insertion) order. -/
def closest_year (year : Int) : Int :=
  match TWIN_HOLY_DAYS.map Prod.fst with
  | [] => year
  | k :: ks =>
    ks.foldl (fun best y => if (y - year).natAbs < (best - year).natAbs then y else best) k

/-- `calculate_twin_holy_days` from `main.py`.  Table hit returns the stored
strings verbatim; otherwise estimate from the closest tabulated year via the
19-year Metonic remainder and a `(remainder * -11) % 365` day shift.  `none`
models an uncaught exception (`date.replace` / overflow on the shift). -/
def calculate_twin_holy_days (year : Int) : Option (String × String) :=
  match TWIN_HOLY_DAYS.lookup year with
  | some p => some p
  | none =>
    let cy := closest_year year
    match TWIN_HOLY_DAYS.lookup cy with
    | none => none
    | some (bab_base, bahaullah_base) => do
      let bab_date ← fromIso bab_base
      let bahaullah_date ← fromIso bahaullah_base
      let year_diff := year - cy
      let _cycles := year_diff / 19
      let remainder := year_diff % 19
      let estimated_shift := (remainder * (-11)) % 365
      let babR ← replaceYear bab_date year
      let bab2 ← addDays babR estimated_shift
      let bahR ← replaceYear bahaullah_date year
      let bah2 ← addDays bahR estimated_shift
      some (isoFormat bab2, isoFormat bah2)

/-- `EVENT_KEYS` from `main.py`, verbatim. -/
def EVENT_KEYS : List (String × String) := [
  ("Naw-Rúz", "nawruz"),
  ("First Day of Riḍván", "1Ridvan"),
  ("Ninth Day of Riḍván", "9Ridvan"),
  ("Twelfth Day of Riḍván", "12Ridvan"),
  ("Declaration of the Báb", "declarationBab"),
  ("Ascension of Bahá\x27u\x27lláh", "ascensionB"),
  ("Martyrdom of the Báb", "martyrdomBab"),
  ("Birth of the Báb", "birthBab"),
  ("Birth of Bahá\x27u\x27lláh", "birthB"),
  ("Day of the Covenant", "covenant"),
  ("Ascension of \x27Abdu\x27l-Bahá", "ascensionA"),
  ("Ayyám-i-Há", "ayyamiha"),
  ("Fast", "fast")]

/-- The translation collaborator (`load_translation`'s JSON dictionaries),
out of scope per §1/§6; we quantify over it.  `names`/`descs`/`urls` model
`translations["events"][...].get`, `monthNames`/`monthDescs` model the
(raising) `translations["month"][...]` lookups of the months endpoint. -/
structure Translations where
  names : String → Option String
  descs : String → Option String
  urls : String → Option String
  monthNames : Int → String
  monthDescs : Int → String

structure TransResult where
  name : String
  desc : String
  url : String
deriving DecidableEq

/-- `translate_event` from `main.py`. -/
def translate_event (tr : Translations) (event_name : String)
    (is_first_fast is_last_fast : Bool) : TransResult :=
  let key := if is_first_fast then "1fast"
    else if is_last_fast then "19fast"
    else (EVENT_KEYS.lookup event_name).getD event_name
  { name := (tr.names key).getD event_name,
    desc := (tr.descs key).getD "",
    url := (tr.urls key).getD "" }

/-- One entry of the `BAHAI_EVENTS` fixed-event table.
Modelled from the spec: `app/bahai_events.py` is not among the provided
source files; §4.3 specifies it as a static list of named Badí holy days,
each with a fixed (month, day).  We quantify over the list. -/
structure FixedEv where
  name : String
  month : Int
  day : Int
deriving DecidableEq

/-- The calendar-math collaborator (`badidatetime.BahaiCalendar` at the fixed
reference location), out of scope per §1/§6; we quantify over it.
`badiYearOf` is the first component of
`badi_date_from_gregorian_date((Y, 3, 21), ...)`; `nawRuz` is
`naw_ruz_g_date` with its (possibly fractional) day already truncated by the
source's `int(...)`; `fromBadi` is `gregorian_date_from_badi_date`, `none`
modelling a raised error. -/
structure Collab where
  badiYearOf : Int → Int
  nawRuz : Int → Int × Int × Int
  fromBadi : Int → Int → Int → Option (Int × Int × Int)

/-- `MONTHNAMES` from `app/monthnames.py` (not among the provided source
files).  Modelled from the spec: a static map from Badí month number to its
transliterated name; we quantify over a total map, absorbing the source's
`MONTHNAMES.get(m, str(m))` fallback. -/
abbrev MonthNames := Int → String

/-- The event dictionary produced by `create_event_dict`. -/
structure Ev where
  event : String
  desc : String
  badi_month : Int
  badi_month_name : String
  badi_day : Int
  gregorian_date : String
  url : String
deriving DecidableEq

def create_event_dict (mn : MonthNames) (event_name desc : String)
    (badi_month badi_day : Int) (gregorian_date : PyDate) (url : String) : Ev :=
  { event := event_name, desc := desc, badi_month := badi_month,
    badi_month_name := mn badi_month, badi_day := badi_day,
    gregorian_date := isoFormat gregorian_date, url := url }

/-- `date(g[0], g[1], g[2]) + timedelta(days := 1)`: the day-boundary
correction applied to every triple obtained from the collaborator ("The
library returns the sunset date, we need to add 1 day for the full day
date"). -/
def correctedDate (g : Int × Int × Int) : Option PyDate :=
  (mkDate g.1 g.2.1 g.2.2).bind (fun o => addDays o 1)

/-- The contribution of one fixed-event table entry: nothing for the two
lunar birth entries (skipped) or on conversion failure (the per-event
`try/except`) or outside the window; otherwise the one translated event. -/
def fixedEventEmit (c : Collab) (tr : Translations) (mn : MonthNames)
    (badi_year : Int) (sd ed : PyDate) (ev : FixedEv) : List Ev :=
  if ev.name = "Birth of the Báb" ∨ ev.name = "Birth of Bahá\x27u\x27lláh" then []
  else
    match (c.fromBadi badi_year ev.month ev.day).bind correctedDate with
    | none => []
    | some event_date =>
      if sd ≤ event_date ∧ event_date < ed then
        let t := translate_event tr ev.name false false
        [create_event_dict mn t.name t.desc ev.month ev.day event_date t.url]
      else []

/-- Section 1 of `get_bahai_events_for_gregorian_year`: the table-driven
fixed events, appended entry by entry in table order. -/
def fixedStage (c : Collab) (tr : Translations) (mn : MonthNames)
    (bahai_events : List FixedEv) (badi_year : Int) (sd ed : PyDate) : List Ev :=
  bahai_events.foldl (fun acc ev => acc ++ fixedEventEmit c tr mn badi_year sd ed ev) []

/-- Section 1b: Twin Holy Days.  A raised exception anywhere in the block
(resolver, ISO parsing) occurs before either append, dropping both events;
otherwise the two window filters are independent. -/
def twinStage (tr : Translations) (mn : MonthNames) (year : Int) (sd ed : PyDate) : List Ev :=
  match (calculate_twin_holy_days year).bind (fun p =>
      (fromIso p.1).bind (fun bab => (fromIso p.2).map (fun bah => (bab, bah)))) with
  | none => []
  | some (bab_date, bahaullah_date) =>
    (if sd ≤ bab_date ∧ bab_date < ed then
      let t := translate_event tr "Birth of the Báb" false false
      [create_event_dict mn t.name t.desc 12 5 bab_date t.url]
     else []) ++
    (if sd ≤ bahaullah_date ∧ bahaullah_date < ed then
      let t := translate_event tr "Birth of Bahá\x27u\x27lláh" false false
      [create_event_dict mn t.name t.desc 12 6 bahaullah_date t.url]
     else [])

/-- The contribution of Ayyám-i-Há day `i + 1`: the per-day event dated
`ayyam_start_date + (day - 1)`, window-filtered.  (The Python fallbacks
`translated["name"] or "Ayyám-i-Há"` treat the empty string as falsy.) -/
def ayyamEmit (tr : Translations) (mn : MonthNames) (sd ed ayyam_start_date : PyDate)
    (i : Nat) : List Ev :=
  let day : Int := (i : Int) + 1
  let ayyam_date := ayyam_start_date + (day - 1)
  if sd ≤ ayyam_date ∧ ayyam_date < ed then
    let t := translate_event tr "Ayyám-i-Há" false false
    [create_event_dict mn
      (if t.name = "" then "Ayyám-i-Há" else t.name)
      (if t.desc = "" then "Días Intercalares" else t.desc)
      0 day ayyam_date t.url]
  else []

/-- Section 2: Ayyám-i-Há expansion.  `ayyam_days` is the measured gap
between the corrected starts of month 19 and month 0; `range(1, n + 1)`
yields `max 0 n` iterations.  (The source's per-day
`ayyam_start_date + timedelta(days = day - 1)` cannot overflow: every such
sum stays strictly below the corrected month-19 start, itself in range.) -/
def ayyamStage (c : Collab) (tr : Translations) (mn : MonthNames)
    (badi_year : Int) (sd ed : PyDate) : List Ev :=
  match (c.fromBadi badi_year 0 1).bind correctedDate with
  | none => []
  | some ayyam_start_date =>
    match (c.fromBadi badi_year 19 1).bind correctedDate with
    | none => []
    | some month19_start_date =>
      let ayyam_days := month19_start_date - ayyam_start_date
      (List.range ayyam_days.toNat).foldl
        (fun acc i => acc ++ ayyamEmit tr mn sd ed ayyam_start_date i) []

/-- Section 3: the two Fasting boundary events share one `try` block: if the
first conversion raises, the second is never attempted; if the second raises
after the first was appended, the first remains. -/
def fastStage (c : Collab) (tr : Translations) (mn : MonthNames)
    (badi_year : Int) (sd ed : PyDate) : List Ev :=
  match (c.fromBadi badi_year 19 1).bind correctedDate with
  | none => []
  | some fast_start_date =>
    (if sd ≤ fast_start_date ∧ fast_start_date < ed then
      let t := translate_event tr "Fast" true false
      [create_event_dict mn t.name t.desc 19 1 fast_start_date t.url]
     else []) ++
    (match (c.fromBadi badi_year 19 19).bind correctedDate with
     | none => []
     | some fast_end_date =>
       if sd ≤ fast_end_date ∧ fast_end_date < ed then
         let t := translate_event tr "Fast" false true
         [create_event_dict mn t.name t.desc 19 19 fast_end_date t.url]
       else [])

/-- Lines 204-212: Badí-year resolution and the year window
`[nawRuzCorrected(badiYear), nawRuzCorrected(badiYear + 1))`; failure here is
fatal to the request. -/
def yearWindow (c : Collab) (year : Int) : Option (Int × PyDate × PyDate) := do
  let badi_year := c.badiYearOf year
  let sd ← correctedDate (c.nawRuz badi_year)
  let ed ← correctedDate (c.nawRuz (badi_year + 1))
  some (badi_year, sd, ed)

/-- `sort_key` (lines 319-326): Naw-Rúz first (tier 0), last day of Fasting
(month 19, day 19) last (tier 2), everything else chronological (tier 1);
within a tier the zero-padded ISO date string orders lexicographically. -/
def sort_key (nawruz_name : String) (ev : Ev) : Nat × String :=
  if ev.event = nawruz_name then (0, ev.gregorian_date)
  else if ev.badi_month = 19 ∧ ev.badi_day = 19 then (2, ev.gregorian_date)
  else (1, ev.gregorian_date)

/-- Python string `<=`: lexicographic comparison of code points. -/
def charsLE : List Char → List Char → Bool
  | [], _ => true
  | _ :: _, [] => false
  | a :: as, b :: bs => if a < b then true else if b < a then false else charsLE as bs

def strLE (a b : String) : Bool := charsLE a.data b.data

/-- Python tuple `<=` on sort keys. -/
def keyLE (a b : Nat × String) : Bool :=
  decide (a.1 < b.1) || (decide (a.1 = b.1) && strLE a.2 b.2)

def evLE (nawruz_name : String) (e1 e2 : Ev) : Bool :=
  keyLE (sort_key nawruz_name e1) (sort_key nawruz_name e2)

/-- Sections 1-3 in source order (fixed, twin, Ayyám-i-Há, fasting), before
sorting. -/
def assembleEvents (c : Collab) (tr : Translations) (mn : MonthNames)
    (bahai_events : List FixedEv) (year : Int) : Option (List Ev) := do
  let (badi_year, sd, ed) ← yearWindow c year
  some (fixedStage c tr mn bahai_events badi_year sd ed ++
        twinStage tr mn year sd ed ++
        ayyamStage c tr mn badi_year sd ed ++
        fastStage c tr mn badi_year sd ed)

/-- `get_bahai_events_for_gregorian_year`: assemble all sections, then
`events.sort(key := sort_key)`.  CPython's `list.sort` is a stable sort by
the key; any two stable sorts of the same list under the same total preorder
produce the same output, so we model it with insertion sort (stable and
structurally recursive). -/
def get_bahai_events_for_gregorian_year (c : Collab) (tr : Translations)
    (mn : MonthNames) (bahai_events : List FixedEv) (year : Int) : Option (List Ev) :=
  (assembleEvents c tr mn bahai_events year).map (fun evs =>
    evs.insertionSort
      (fun e1 e2 => evLE (translate_event tr "Naw-Rúz" false false).name e1 e2 = true))

/-- One entry of the months endpoint's result list. -/
structure MonthEntry where
  badi_month : Int
  badi_month_name : String
  gregorian_date : String
  desc : String
  info : String
deriving DecidableEq

/-- `create_month_entry` (lines 414-425).  Note: it is NOT wrapped in a
`try/except` — a collaborator failure raises out of the whole endpoint. -/
def create_month_entry (c : Collab) (tr : Translations) (mn : MonthNames)
    (badi_year month_num : Int) : Option MonthEntry := do
  let g ← c.fromBadi badi_year month_num 1
  let corrected_date ← correctedDate g
  some { badi_month := month_num,
         badi_month_name := mn month_num ++ " (" ++ tr.monthNames month_num ++ ")",
         gregorian_date := isoFormat corrected_date,
         desc := tr.monthDescs month_num,
         info := "Comienza en el atardecer del día anterior" }

/-- `get_bahai_months`: one entry per Badí month, 1..19 then 0.  Any
per-month failure aborts the whole computation (no `try/except` here). -/
def get_bahai_months (c : Collab) (tr : Translations) (mn : MonthNames)
    (year : Int) : Option (List MonthEntry) := do
  let badi_year := c.badiYearOf year
  let months := (List.range 19).map (fun i => (i : Int) + 1) ++ [0]
  months.mapM (create_month_entry c tr mn badi_year)

/-- A concrete collaborator used in witnesses: Badí year 181, Naw-Rúz at
sunset 2024-03-20 (civil 2024-03-21), Ayyám-i-Há from sunset 2025-02-24,
month 19 (Fasting) from sunset 2025-02-28, last fast day at sunset
2025-03-18, matching the real calendar around Gregorian year 2024. -/
def testCollab : Collab where
  badiYearOf := fun _ => 181
  nawRuz := fun b =>
    if b = 181 then (2024, 3, 20) else if b = 182 then (2025, 3, 20) else (1, 1, 1)
  fromBadi := fun b m d =>
    if b = 181 ∧ m = 1 ∧ d = 1 then some (2024, 3, 20)
    else if b = 181 ∧ m = 0 ∧ d = 1 then some (2025, 2, 24)
    else if b = 181 ∧ m = 19 ∧ d = 1 then some (2025, 2, 28)
    else if b = 181 ∧ m = 19 ∧ d = 19 then some (2025, 3, 18)
    else none

/-- A collaborator whose Badí-to-Gregorian conversion succeeds for every
month, for the months-endpoint witnesses. -/
def fullCollab : Collab where
  badiYearOf := fun _ => 181
  nawRuz := fun b =>
    if b = 181 then (2024, 3, 20) else if b = 182 then (2025, 3, 20) else (1, 1, 1)
  fromBadi := fun _ m _ => some (2024, 4, m + 2)

/-- A translation table with no localized strings: every lookup falls back. -/
def testTr : Translations :=
  { names := fun _ => none, descs := fun _ => none, urls := fun _ => none,
    monthNames := fun _ => "mes", monthDescs := fun _ => "descripcion" }

def testMn : MonthNames := fun _ => "Month"

/-- A two-entry fixed-event table: Naw-Rúz plus a (skipped) birth entry. -/
def testFixed : List FixedEv :=
  [⟨"Naw-Rúz", 1, 1⟩, ⟨"Birth of the Báb", 12, 5⟩]

example : get_bahai_months testCollab testTr testMn 2024 = none := by decide
example : (get_bahai_months fullCollab testTr testMn 2024).map List.length = some 20 := by decide
example :
    (get_bahai_events_for_gregorian_year testCollab testTr testMn testFixed 2024).map
      List.length = some 9 := by decide
example :
    (get_bahai_events_for_gregorian_year testCollab testTr testMn testFixed 2024).map
      (List.map Ev.gregorian_date) =
    some ["2024-03-21", "2024-10-18", "2024-10-19", "2025-02-25", "2025-02-26",
          "2025-02-27", "2025-02-28", "2025-03-01", "2025-03-19"] := by decide

/-! ### Order properties of the sort comparator -/

theorem charsLE_total : ∀ a b : List Char, charsLE a b = true ∨ charsLE b a = true
  | [], [] => Or.inl rfl
  | [], _ :: _ => Or.inl rfl
  | _ :: _, [] => Or.inr rfl
  | a :: as, b :: bs => by
    by_cases h1 : a < b
    · exact Or.inl (by simp [charsLE, h1])
    · by_cases h2 : b < a
      · exact Or.inr (by simp [charsLE, h2])
      · rcases charsLE_total as bs with h | h
        · exact Or.inl (by simp [charsLE, h1, h2, h])
        · exact Or.inr (by simp [charsLE, h1, h2, h])

theorem charsLE_cons_iff (a b : Char) (as bs : List Char) :
    charsLE (a :: as) (b :: bs) = true ↔ a < b ∨ (a = b ∧ charsLE as bs = true) := by
  by_cases h1 : a < b
  · simp [charsLE, h1]
  · by_cases h2 : b < a
    · have hne : a ≠ b := fun he => absurd (he ▸ h2) (lt_irrefl _)
      simp [charsLE, h1, h2, hne]
    · have he : a = b := le_antisymm (not_lt.1 h2) (not_lt.1 h1)
      simp [charsLE, h1, h2, he]

theorem charsLE_trans : ∀ a b c : List Char,
    charsLE a b = true → charsLE b c = true → charsLE a c = true
  | [], _, _, _, _ => rfl
  | _ :: _, [], _, h1, _ => by simp [charsLE] at h1
  | _ :: _, _ :: _, [], _, h2 => by simp [charsLE] at h2
  | a :: as, b :: bs, c :: cs, h1, h2 => by
    rw [charsLE_cons_iff] at h1 h2 ⊢
    rcases h1 with h1 | ⟨he1, h1'⟩
    · rcases h2 with h2 | ⟨he2, _⟩
      · exact Or.inl (lt_trans h1 h2)
      · exact Or.inl (he2 ▸ h1)
    · subst he1
      rcases h2 with h2 | ⟨he2, h2'⟩
      · exact Or.inl h2
      · exact Or.inr ⟨he2, charsLE_trans as bs cs h1' h2'⟩

theorem keyLE_total (a b : Nat × String) : keyLE a b = true ∨ keyLE b a = true := by
  unfold keyLE
  rcases Nat.lt_trichotomy a.1 b.1 with h | h | h
  · exact Or.inl (by simp [h])
  · rcases charsLE_total a.2.data b.2.data with hs | hs
    · exact Or.inl (by simp [h, strLE, hs])
    · exact Or.inr (by simp [h, strLE, hs])
  · exact Or.inr (by simp [h])

theorem keyLE_trans (a b c : Nat × String) :
    keyLE a b = true → keyLE b c = true → keyLE a c = true := by
  unfold keyLE strLE
  simp only [Bool.or_eq_true, Bool.and_eq_true, decide_eq_true_eq]
  rintro (h1 | ⟨h1, h1'⟩) (h2 | ⟨h2, h2'⟩)
  · exact Or.inl (Nat.lt_trans h1 h2)
  · exact Or.inl (h2 ▸ h1)
  · exact Or.inl (h1 ▸ h2)
  · exact Or.inr ⟨h1.trans h2, charsLE_trans _ _ _ h1' h2'⟩

theorem keyLE_fst_le {a b : Nat × String} (h : keyLE a b = true) : a.1 ≤ b.1 := by
  unfold keyLE at h
  simp only [Bool.or_eq_true, Bool.and_eq_true, decide_eq_true_eq] at h
  rcases h with h | ⟨h, _⟩
  · exact Nat.le_of_lt h
  · exact h.le

theorem evLE_total (n : String) (a b : Ev) : evLE n a b = true ∨ evLE n b a = true :=
  keyLE_total _ _

theorem evLE_trans (n : String) (a b c : Ev) :
    evLE n a b = true → evLE n b c = true → evLE n a c = true :=
  keyLE_trans _ _ _

/-- The tier of the composite sort key is 0 exactly for the Naw-Rúz name. -/
theorem sort_key_fst_eq_zero_iff (n : String) (e : Ev) :
    (sort_key n e).1 = 0 ↔ e.event = n := by
  unfold sort_key
  by_cases h1 : e.event = n
  · simp [h1]
  · by_cases h2 : e.badi_month = 19 ∧ e.badi_day = 19 <;> simp [h1, h2]

/-- The tier of the composite sort key is 2 exactly for a month-19 day-19
event not named Naw-Rúz. -/
theorem sort_key_fst_eq_two_iff (n : String) (e : Ev) :
    (sort_key n e).1 = 2 ↔ (e.event ≠ n ∧ e.badi_month = 19 ∧ e.badi_day = 19) := by
  unfold sort_key
  by_cases h1 : e.event = n
  · simp [h1]
  · by_cases h2 : e.badi_month = 19 ∧ e.badi_day = 19 <;> simp [h1, h2]

theorem sort_key_fst_le_two (n : String) (e : Ev) : (sort_key n e).1 ≤ 2 := by
  unfold sort_key
  by_cases h1 : e.event = n
  · simp [h1]
  · by_cases h2 : e.badi_month = 19 ∧ e.badi_day = 19 <;> simp [h1, h2]

/-! ### Generic list lemmas -/

theorem pairwise_getLast {α : Type} {r : α → α → Prop} :
    ∀ (l : List α) (hne : l ≠ []), l.Pairwise r → ∀ x ∈ l,
      x = l.getLast hne ∨ r x (l.getLast hne)
  | [], hne, _, _, _ => absurd rfl hne
  | [a], _, _, x, hx => by
    simp only [List.mem_singleton] at hx
    subst hx
    exact Or.inl rfl
  | a :: b :: t, _, hp, x, hx => by
    rw [List.getLast_cons (by simp : b :: t ≠ [])]
    rcases List.mem_cons.1 hx with rfl | hx'
    · exact Or.inr ((List.pairwise_cons.1 hp).1 _ (List.getLast_mem _))
    · exact pairwise_getLast (b :: t) (by simp) (List.pairwise_cons.1 hp).2 x hx'

theorem two_le_countP {α : Type} (p : α → Bool) :
    ∀ (l : List α) (x y : α), x ∈ l → y ∈ l → x ≠ y →
      p x = true → p y = true → 2 ≤ l.countP p
  | [], x, y, hx, _, _, _, _ => absurd hx (List.not_mem_nil x)
  | a :: t, x, y, hx, hy, hxy, hpx, hpy => by
    rcases List.mem_cons.1 hx with rfl | hx'
    · rcases List.mem_cons.1 hy with rfl | hy'
      · exact absurd rfl hxy
      · have h1 : 0 < t.countP p := List.countP_pos_iff.2 ⟨y, hy', hpy⟩
        have hc := List.countP_cons_of_pos p t hpx
        omega
    · rcases List.mem_cons.1 hy with rfl | hy'
      · have h1 : 0 < t.countP p := List.countP_pos_iff.2 ⟨x, hx', hpx⟩
        have hc := List.countP_cons_of_pos p t hpy
        omega
      · have := two_le_countP p t x y hx' hy' hxy hpx hpy
        have hc := List.countP_cons p a t
        omega

theorem foldl_min_mem (f : Int → Nat) :
    ∀ (ks : List Int) (k : Int),
      ks.foldl (fun best y => if f y < f best then y else best) k ∈ k :: ks
  | [], _ => List.mem_singleton.2 rfl
  | y :: t, k => by
    simp only [List.foldl_cons]
    by_cases hc : f y < f k
    · rw [if_pos hc]
      have h := foldl_min_mem f t y
      rcases List.mem_cons.1 h with h' | h'
      · rw [h']
        simp
      · simp [h']
    · rw [if_neg hc]
      have h := foldl_min_mem f t k
      rcases List.mem_cons.1 h with h' | h'
      · rw [h']
        simp
      · simp [h']

theorem lookup_isSome_of_mem_keys {α : Type} {l : List (Int × α)} {a : Int} :
    a ∈ l.map Prod.fst → ∃ p, l.lookup a = some p := by
  induction l with
  | nil => intro h; simp at h
  | cons kv t ih =>
    intro h
    by_cases hk : a = kv.1
    · exact ⟨kv.2, by simp [List.lookup, hk]⟩
    · rcases List.mem_map.1 h with ⟨q, hq, hqa⟩
      rcases List.mem_cons.1 hq with rfl | hq'
      · exact absurd hqa.symm hk
      · rcases ih (List.mem_map.2 ⟨q, hq', hqa⟩) with ⟨p, hp⟩
        exact ⟨p, by simp [List.lookup, beq_false_of_ne hk, hp]⟩

theorem mem_of_lookup_eq_some {α : Type} {l : List (Int × α)} {a : Int} {p : α} :
    l.lookup a = some p → (a, p) ∈ l := by
  induction l with
  | nil => intro h; simp [List.lookup] at h
  | cons kv t ih =>
    cases kv with
    | mk k v =>
      intro h
      by_cases hk : (a == k) = true
      · have ha : a = k := eq_of_beq hk
        simp only [List.lookup, hk] at h
        have hv : v = p := by exact Option.some.inj h
        subst ha
        subst hv
        exact List.mem_cons_self _ _
      · simp only [List.lookup, Bool.not_eq_true] at h
        rw [Bool.not_eq_true] at hk
        rw [hk] at h
        exact List.mem_cons.2 (Or.inr (ih h))

/-- The concrete event list produced by the test fixtures for 2024. -/
def testEvents : List Ev :=
  (get_bahai_events_for_gregorian_year testCollab testTr testMn testFixed 2024).getD []

/-- The concrete pre-sort event list produced by the test fixtures for 2024. -/
def testAssembled : List Ev :=
  (assembleEvents testCollab testTr testMn testFixed 2024).getD []

/-- C10: for Gregorian year 2070, which is absent from the curated table, the
estimator's output dates fall in year 2071, not 2070: the closest tabulated
year is 2064, remainder 6, shift (6 * -11) mod 365 = 299 days, pushing
2070-11-02 to 2071-08-28. -/
theorem c10_estimated_dates_leave_requested_year :
    TWIN_HOLY_DAYS.lookup 2070 = none ∧
    closest_year 2070 = 2064 ∧
    calculate_twin_holy_days 2070 = some ("2071-08-28", "2071-08-29") ∧
    (fromIso "2071-08-28").map (fun o => (fromOrdinal o).1) = some 2071 ∧
    (2071 : Int) ≠ 2070 :=
  ⟨by decide, by decide, by decide, by decide, by decide⟩

/-- C1: every year present in the curated table is answered with the stored
pair of literal date strings, with no recomputation; for 2024 these are
2024-10-18 and 2024-10-19, two consecutive civil days, and whenever the
resolved year window admits them, `resolveEvents(2024)` contains the two
birth events carrying exactly those dates. -/
theorem c1_twin_table_verbatim :
    (∀ y p, TWIN_HOLY_DAYS.lookup y = some p → calculate_twin_holy_days y = some p) ∧
    calculate_twin_holy_days 2024 = some ("2024-10-18", "2024-10-19") ∧
    (fromIso "2024-10-18" = some (toOrdinal 2024 10 18) ∧
     fromIso "2024-10-19" = some (toOrdinal 2024 10 18 + 1)) ∧
    (∀ (c : Collab) (tr : Translations) (mn : MonthNames) (bes : List FixedEv)
        (bady sd ed : Int) (evs : List Ev),
      yearWindow c 2024 = some (bady, sd, ed) →
      sd ≤ toOrdinal 2024 10 18 →
      toOrdinal 2024 10 18 + 1 < ed →
      get_bahai_events_for_gregorian_year c tr mn bes 2024 = some evs →
      (∃ e ∈ evs, e.event = (translate_event tr "Birth of the Báb" false false).name ∧
        e.badi_month = 12 ∧ e.badi_day = 5 ∧ e.gregorian_date = "2024-10-18") ∧
      (∃ e ∈ evs, e.event = (translate_event tr "Birth of Bahá\x27u\x27lláh" false false).name ∧
        e.badi_month = 12 ∧ e.badi_day = 6 ∧ e.gregorian_date = "2024-10-19")) := by
  refine ⟨?_, by decide, ⟨by decide, by decide⟩, ?_⟩
  · intro y p h
    simp only [calculate_twin_holy_days, h]
  · intro c tr mn bes bady sd ed evs hw hle hlt hget
    have hb1 : fromIso "2024-10-18" = some (toOrdinal 2024 10 18) := by decide
    have hb2 : fromIso "2024-10-19" = some (toOrdinal 2024 10 18 + 1) := by decide
    have hcalc : calculate_twin_holy_days 2024 = some ("2024-10-18", "2024-10-19") := by decide
    have htwin : twinStage tr mn 2024 sd ed =
        [create_event_dict mn (translate_event tr "Birth of the Báb" false false).name
           (translate_event tr "Birth of the Báb" false false).desc 12 5
           (toOrdinal 2024 10 18)
           (translate_event tr "Birth of the Báb" false false).url,
         create_event_dict mn (translate_event tr "Birth of Bahá\x27u\x27lláh" false false).name
           (translate_event tr "Birth of Bahá\x27u\x27lláh" false false).desc 12 6
           (toOrdinal 2024 10 18 + 1)
           (translate_event tr "Birth of Bahá\x27u\x27lláh" false false).url] := by
      unfold twinStage
      rw [hcalc]
      simp only [Option.some_bind, hb1, hb2, Option.map_some']
      have hA : sd ≤ toOrdinal 2024 10 18 ∧ toOrdinal 2024 10 18 < ed := ⟨hle, by omega⟩
      have hB : sd ≤ toOrdinal 2024 10 18 + 1 ∧ toOrdinal 2024 10 18 + 1 < ed := ⟨by omega, hlt⟩
      rw [if_pos hA, if_pos hB]
      rfl
    unfold get_bahai_events_for_gregorian_year at hget
    have hasm : assembleEvents c tr mn bes 2024 =
        some (fixedStage c tr mn bes bady sd ed ++ twinStage tr mn 2024 sd ed ++
              ayyamStage c tr mn bady sd ed ++ fastStage c tr mn bady sd ed) := by
      unfold assembleEvents
      rw [hw]
      rfl
    rw [hasm] at hget
    simp only [Option.map_some', Option.some.injEq] at hget
    subst hget
    constructor
    · refine ⟨create_event_dict mn (translate_event tr "Birth of the Báb" false false).name
          (translate_event tr "Birth of the Báb" false false).desc 12 5
          (toOrdinal 2024 10 18)
          (translate_event tr "Birth of the Báb" false false).url,
        ?_, rfl, rfl, rfl,
        (by decide : isoFormat (toOrdinal 2024 10 18) = "2024-10-18")⟩
      rw [List.mem_insertionSort, htwin]
      simp
    · refine ⟨create_event_dict mn
          (translate_event tr "Birth of Bahá\x27u\x27lláh" false false).name
          (translate_event tr "Birth of Bahá\x27u\x27lláh" false false).desc 12 6
          (toOrdinal 2024 10 18 + 1)
          (translate_event tr "Birth of Bahá\x27u\x27lláh" false false).url,
        ?_, rfl, rfl, rfl,
        (by decide : isoFormat (toOrdinal 2024 10 18 + 1) = "2024-10-19")⟩
      rw [List.mem_insertionSort, htwin]
      simp

/-- Witness for C1 at the concrete 2024 fixtures. -/
theorem c1_twin_table_verbatim_witness :
    calculate_twin_holy_days 2024 = some ("2024-10-18", "2024-10-19") ∧
    ((∃ e ∈ testEvents,
        e.event = (translate_event testTr "Birth of the Báb" false false).name ∧
        e.badi_month = 12 ∧ e.badi_day = 5 ∧ e.gregorian_date = "2024-10-18") ∧
     (∃ e ∈ testEvents,
        e.event = (translate_event testTr "Birth of Bahá\x27u\x27lláh" false false).name ∧
        e.badi_month = 12 ∧ e.badi_day = 6 ∧ e.gregorian_date = "2024-10-19")) :=
  ⟨c1_twin_table_verbatim.1 2024 ("2024-10-18", "2024-10-19") (by decide),
   c1_twin_table_verbatim.2.2.2 testCollab testTr testMn testFixed 181
     (toOrdinal 2024 3 21) (toOrdinal 2025 3 21) testEvents
     (by decide) (by decide) (by decide) (by decide)⟩

/-! ### Supporting facts for the Metonic estimator (C2) -/

theorem daysInMonth_ten (y : Int) : daysInMonth y 10 = 31 := by
  unfold daysInMonth
  norm_num

theorem daysInMonth_eleven (y : Int) : daysInMonth y 11 = 30 := by
  unfold daysInMonth
  norm_num

theorem toOrdinal_day_succ (y m d : Int) : toOrdinal y m (d + 1) = toOrdinal y m d + 1 := by
  unfold toOrdinal
  ring

theorem toOrdinal_bounds (y m d : Int) (hy1 : 1 ≤ y) (hy2 : y ≤ 9998)
    (hm : m = 10 ∨ m = 11) (hd1 : 1 ≤ d) (hd2 : d ≤ 31) :
    1 ≤ toOrdinal y m d ∧ toOrdinal y m d + 366 ≤ 3652059 := by
  have e4 := Int.ediv_add_emod (y - 1) 4
  have r4a := Int.emod_nonneg (y - 1) (by norm_num : (4 : Int) ≠ 0)
  have r4b := Int.emod_lt_of_pos (y - 1) (by norm_num : (0 : Int) < 4)
  have e100 := Int.ediv_add_emod (y - 1) 100
  have r100a := Int.emod_nonneg (y - 1) (by norm_num : (100 : Int) ≠ 0)
  have r100b := Int.emod_lt_of_pos (y - 1) (by norm_num : (0 : Int) < 100)
  have e400 := Int.ediv_add_emod (y - 1) 400
  have r400a := Int.emod_nonneg (y - 1) (by norm_num : (400 : Int) ≠ 0)
  have r400b := Int.emod_lt_of_pos (y - 1) (by norm_num : (0 : Int) < 400)
  rcases hm with rfl | rfl <;>
  · unfold toOrdinal daysBeforeYear daysBeforeMonth
    norm_num
    by_cases hL : isLeap y = true <;> simp only [hL] <;> omega

theorem mkDate_eq_some (y m d : Int)
    (h : 1 ≤ y ∧ y ≤ 9999 ∧ 1 ≤ m ∧ m ≤ 12 ∧ 1 ≤ d ∧ d ≤ daysInMonth y m) :
    mkDate y m d = some (toOrdinal y m d) := by
  unfold mkDate
  rw [if_pos h]

/-- The properties of a curated table entry that the estimator's correctness
rests on: both strings parse, to consecutive ordinals, in the key's year and
a common month (October or November), with a day number that stays valid for
that month in every year. -/
def goodEntry (e : Int × String × String) : Bool :=
  match fromIso e.2.1, fromIso e.2.2 with
  | some o1, some o2 =>
    decide ((fromOrdinal o1).1 = e.1) && decide ((fromOrdinal o2).1 = e.1) &&
    decide ((fromOrdinal o2).2.1 = (fromOrdinal o1).2.1) &&
    decide ((fromOrdinal o2).2.2 = (fromOrdinal o1).2.2 + 1) &&
    decide (o2 = o1 + 1) && decide (1 ≤ (fromOrdinal o1).2.2) &&
    (decide ((fromOrdinal o1).2.1 = 10) && decide ((fromOrdinal o1).2.2 + 1 ≤ 31) ||
     decide ((fromOrdinal o1).2.1 = 11) && decide ((fromOrdinal o1).2.2 + 1 ≤ 30))
  | _, _ => false

theorem twin_all_good : TWIN_HOLY_DAYS.all goodEntry = true := by decide

theorem closest_year_mem (year : Int) :
    closest_year year ∈ TWIN_HOLY_DAYS.map Prod.fst :=
  foldl_min_mem (fun y => (y - year).natAbs) ((TWIN_HOLY_DAYS.map Prod.fst).tail) 2015

/-- C2: for a year absent from the curated table (within Python's supported
date range) the resolver estimates: it takes the closest tabulated year's
entry, keeps its month and day, replaces the year field with `year`, adds
`(((year - closest) mod 19) * -11) mod 365` days to both dates, and the two
returned dates are exactly one day apart. -/
theorem c2_metonic_estimation (year : Int)
    (hnone : TWIN_HOLY_DAYS.lookup year = none) (hy1 : 1 ≤ year) (hy2 : year ≤ 9998) :
    ∃ (s1 s2 : String) (m d o1 : Int),
      TWIN_HOLY_DAYS.lookup (closest_year year) = some (s1, s2) ∧
      fromIso s1 = some o1 ∧
      fromOrdinal o1 = (closest_year year, m, d) ∧
      fromIso s2 = some (o1 + 1) ∧
      calculate_twin_holy_days year =
        some (isoFormat (toOrdinal year m d + ((year - closest_year year) % 19 * (-11)) % 365),
              isoFormat (toOrdinal year m d + ((year - closest_year year) % 19 * (-11)) % 365 + 1)) := by
  obtain ⟨p, hlk⟩ := lookup_isSome_of_mem_keys (closest_year_mem year)
  obtain ⟨s1, s2⟩ := p
  have hmem := mem_of_lookup_eq_some hlk
  have hgood : goodEntry (closest_year year, s1, s2) = true :=
    List.all_eq_true.1 twin_all_good _ hmem
  unfold goodEntry at hgood
  cases hp1 : fromIso s1 with
  | none => rw [hp1] at hgood; simp at hgood
  | some o1 =>
  cases hp2 : fromIso s2 with
  | none => rw [hp1, hp2] at hgood; simp at hgood
  | some o2 =>
  rw [hp1, hp2] at hgood
  dsimp only at hgood
  rcases hfo1 : fromOrdinal o1 with ⟨y1, m, d⟩
  rcases hfo2 : fromOrdinal o2 with ⟨y2, m2, d2⟩
  rw [hfo1, hfo2] at hgood
  simp only [Bool.and_eq_true, Bool.or_eq_true, decide_eq_true_eq] at hgood
  obtain ⟨⟨⟨⟨⟨⟨hg1, hg2⟩, hg3⟩, hg4⟩, hg5⟩, hg6⟩, hg7⟩ := hgood
  have hm10 : m = 10 ∨ m = 11 := by
    rcases hg7 with ⟨h, _⟩ | ⟨h, _⟩
    · exact Or.inl h
    · exact Or.inr h
  have hdim : d + 1 ≤ daysInMonth year m := by
    rcases hg7 with ⟨rfl, h⟩ | ⟨rfl, h⟩
    · rw [daysInMonth_ten]; exact h
    · rw [daysInMonth_eleven]; exact h
  have hd31 : d ≤ 31 := by rcases hg7 with ⟨_, h⟩ | ⟨_, h⟩ <;> omega
  have hm1 : 1 ≤ m := by rcases hm10 with rfl | rfl <;> norm_num
  have hm12 : m ≤ 12 := by rcases hm10 with rfl | rfl <;> norm_num
  have hrep1 : replaceYear o1 year = some (toOrdinal year m d) := by
    unfold replaceYear
    rw [hfo1]
    exact mkDate_eq_some year m d ⟨hy1, by omega, hm1, hm12, hg6, by omega⟩
  have hrep2 : replaceYear o2 year = some (toOrdinal year m d + 1) := by
    unfold replaceYear
    rw [hfo2, hg3, hg4, ← toOrdinal_day_succ]
    exact mkDate_eq_some year m (d + 1) ⟨hy1, by omega, hm1, hm12, by omega, hdim⟩
  have hs0 : 0 ≤ ((year - closest_year year) % 19 * (-11)) % 365 :=
    Int.emod_nonneg _ (by norm_num)
  have hs365 : ((year - closest_year year) % 19 * (-11)) % 365 < 365 :=
    Int.emod_lt_of_pos _ (by norm_num)
  obtain ⟨hb1, hb2⟩ := toOrdinal_bounds year m d hy1 hy2 hm10 hg6 hd31
  have hc1 : 1 ≤ toOrdinal year m d + ((year - closest_year year) % 19 * (-11)) % 365 ∧
      toOrdinal year m d + ((year - closest_year year) % 19 * (-11)) % 365 ≤ 3652059 :=
    ⟨by omega, by omega⟩
  have hc2 : 1 ≤ toOrdinal year m d + 1 + ((year - closest_year year) % 19 * (-11)) % 365 ∧
      toOrdinal year m d + 1 + ((year - closest_year year) % 19 * (-11)) % 365 ≤ 3652059 :=
    ⟨by omega, by omega⟩
  have hadd1 : addDays (toOrdinal year m d) (((year - closest_year year) % 19 * (-11)) % 365) =
      some (toOrdinal year m d + ((year - closest_year year) % 19 * (-11)) % 365) := by
    unfold addDays
    rw [if_pos hc1]
  have hadd2 : addDays (toOrdinal year m d + 1)
        (((year - closest_year year) % 19 * (-11)) % 365) =
      some (toOrdinal year m d + ((year - closest_year year) % 19 * (-11)) % 365 + 1) := by
    unfold addDays
    rw [if_pos hc2]
    rw [Option.some.injEq]
    ring
  refine ⟨s1, s2, m, d, o1, hlk, hp1, by rw [hfo1, hg1], by rw [hp2, hg5], ?_⟩
  unfold calculate_twin_holy_days
  rw [hnone]
  dsimp only
  rw [hlk]
  simp only [Option.bind_eq_bind, Option.some_bind, hp1, hp2, hrep1, hrep2, hadd1, hadd2]

/-- Witness for C2 at the concrete year 2070. -/
theorem c2_metonic_estimation_witness :
    ∃ (s1 s2 : String) (m d o1 : Int),
      TWIN_HOLY_DAYS.lookup (closest_year 2070) = some (s1, s2) ∧
      fromIso s1 = some o1 ∧
      fromOrdinal o1 = (closest_year 2070, m, d) ∧
      fromIso s2 = some (o1 + 1) ∧
      calculate_twin_holy_days 2070 =
        some (isoFormat (toOrdinal 2070 m d + ((2070 - closest_year 2070) % 19 * (-11)) % 365),
              isoFormat (toOrdinal 2070 m d + ((2070 - closest_year 2070) % 19 * (-11)) % 365 + 1)) :=
  c2_metonic_estimation 2070 (by decide) (by decide) (by decide)

/-! ### Stage membership and window lemmas -/

theorem mem_foldl_append {α β : Type} (f : β → List α) :
    ∀ (l : List β) (acc : List α) (x : α),
      x ∈ l.foldl (fun a b => a ++ f b) acc ↔ x ∈ acc ∨ ∃ b ∈ l, x ∈ f b
  | [], acc, x => by simp
  | b :: t, acc, x => by
    rw [List.foldl_cons, mem_foldl_append f t (acc ++ f b) x]
    simp only [List.mem_append, List.mem_cons]
    constructor
    · rintro ((h | h) | ⟨b', hb', hx⟩)
      · exact Or.inl h
      · exact Or.inr ⟨b, Or.inl rfl, h⟩
      · exact Or.inr ⟨b', Or.inr hb', hx⟩
    · rintro (h | ⟨b', (rfl | hb'), hx⟩)
      · exact Or.inl (Or.inl h)
      · exact Or.inl (Or.inr hx)
      · exact Or.inr ⟨b', hb', hx⟩

theorem fixedStage_subset {c : Collab} {tr : Translations} {mn : MonthNames}
    {bes : List FixedEv} {badi_year : Int} {sd ed : PyDate} {ev : Ev}
    (h : ev ∈ fixedStage c tr mn bes badi_year sd ed) :
    ∃ entry ∈ bes, ev ∈ fixedEventEmit c tr mn badi_year sd ed entry := by
  unfold fixedStage at h
  rcases (mem_foldl_append _ bes [] ev).1 h with h' | h'
  · simp at h'
  · exact h'

theorem fixedEventEmit_spec {c : Collab} {tr : Translations} {mn : MonthNames}
    {badi_year : Int} {sd ed : PyDate} {entry : FixedEv} {ev : Ev}
    (h : ev ∈ fixedEventEmit c tr mn badi_year sd ed entry) :
    ∃ g o, ¬(entry.name = "Birth of the Báb" ∨ entry.name = "Birth of Bahá\x27u\x27lláh") ∧
      c.fromBadi badi_year entry.month entry.day = some g ∧
      correctedDate g = some o ∧ sd ≤ o ∧ o < ed ∧
      ev = create_event_dict mn (translate_event tr entry.name false false).name
        (translate_event tr entry.name false false).desc entry.month entry.day o
        (translate_event tr entry.name false false).url := by
  unfold fixedEventEmit at h
  by_cases hb : entry.name = "Birth of the Báb" ∨ entry.name = "Birth of Bahá\x27u\x27lláh"
  · rw [if_pos hb] at h
    simp at h
  · rw [if_neg hb] at h
    cases hc : (c.fromBadi badi_year entry.month entry.day).bind correctedDate with
    | none => rw [hc] at h; simp at h
    | some o =>
      rw [hc] at h
      dsimp only at h
      by_cases hwin : sd ≤ o ∧ o < ed
      · rw [if_pos hwin] at h
        simp only [List.mem_singleton] at h
        cases hg : c.fromBadi badi_year entry.month entry.day with
        | none => rw [hg] at hc; simp at hc
        | some g =>
          rw [hg] at hc
          simp only [Option.some_bind] at hc
          exact ⟨g, o, hb, rfl, hc, hwin.1, hwin.2, h⟩
      · rw [if_neg hwin] at h
        simp at h

theorem twinStage_spec {tr : Translations} {mn : MonthNames} {year : Int}
    {sd ed : PyDate} {ev : Ev} (h : ev ∈ twinStage tr mn year sd ed) :
    ∃ o, sd ≤ o ∧ o < ed ∧
      ((ev = create_event_dict mn (translate_event tr "Birth of the Báb" false false).name
          (translate_event tr "Birth of the Báb" false false).desc 12 5 o
          (translate_event tr "Birth of the Báb" false false).url) ∨
       (ev = create_event_dict mn
          (translate_event tr "Birth of Bahá\x27u\x27lláh" false false).name
          (translate_event tr "Birth of Bahá\x27u\x27lláh" false false).desc 12 6 o
          (translate_event tr "Birth of Bahá\x27u\x27lláh" false false).url)) := by
  unfold twinStage at h
  cases hc : (calculate_twin_holy_days year).bind (fun p =>
      (fromIso p.1).bind (fun bab => (fromIso p.2).map (fun bah => (bab, bah)))) with
  | none => rw [hc] at h; simp at h
  | some pr =>
    obtain ⟨bab, bah⟩ := pr
    rw [hc] at h
    rcases List.mem_append.1 h with h' | h'
    · by_cases hwin : sd ≤ bab ∧ bab < ed
      · rw [if_pos hwin] at h'
        simp only [List.mem_singleton] at h'
        exact ⟨bab, hwin.1, hwin.2, Or.inl h'⟩
      · rw [if_neg hwin] at h'
        simp at h'
    · by_cases hwin : sd ≤ bah ∧ bah < ed
      · rw [if_pos hwin] at h'
        simp only [List.mem_singleton] at h'
        exact ⟨bah, hwin.1, hwin.2, Or.inr h'⟩
      · rw [if_neg hwin] at h'
        simp at h'

theorem ayyamStage_spec {c : Collab} {tr : Translations} {mn : MonthNames}
    {badi_year : Int} {sd ed : PyDate} {ev : Ev}
    (h : ev ∈ ayyamStage c tr mn badi_year sd ed) :
    ∃ (m0 m19 : PyDate) (i : Nat),
      (c.fromBadi badi_year 0 1).bind correctedDate = some m0 ∧
      (c.fromBadi badi_year 19 1).bind correctedDate = some m19 ∧
      i < (m19 - m0).toNat ∧ ev ∈ ayyamEmit tr mn sd ed m0 i := by
  unfold ayyamStage at h
  cases h0 : (c.fromBadi badi_year 0 1).bind correctedDate with
  | none => rw [h0] at h; simp at h
  | some m0 =>
    rw [h0] at h
    cases h19 : (c.fromBadi badi_year 19 1).bind correctedDate with
    | none => rw [h19] at h; simp at h
    | some m19 =>
      rw [h19] at h
      rcases (mem_foldl_append _ _ [] ev).1 h with h' | ⟨i, hi, hx⟩
      · simp at h'
      · exact ⟨m0, m19, i, rfl, rfl, List.mem_range.1 hi, hx⟩

theorem ayyamEmit_spec {tr : Translations} {mn : MonthNames}
    {sd ed m0 : PyDate} {i : Nat} {ev : Ev} (h : ev ∈ ayyamEmit tr mn sd ed m0 i) :
    sd ≤ m0 + ((i : Int) + 1 - 1) ∧ m0 + ((i : Int) + 1 - 1) < ed ∧
      ev = create_event_dict mn
        (if (translate_event tr "Ayyám-i-Há" false false).name = "" then "Ayyám-i-Há"
         else (translate_event tr "Ayyám-i-Há" false false).name)
        (if (translate_event tr "Ayyám-i-Há" false false).desc = "" then "Días Intercalares"
         else (translate_event tr "Ayyám-i-Há" false false).desc)
        0 ((i : Int) + 1) (m0 + ((i : Int) + 1 - 1))
        (translate_event tr "Ayyám-i-Há" false false).url := by
  unfold ayyamEmit at h
  by_cases hwin : sd ≤ m0 + ((i : Int) + 1 - 1) ∧ m0 + ((i : Int) + 1 - 1) < ed
  · rw [if_pos hwin] at h
    simp only [List.mem_singleton] at h
    exact ⟨hwin.1, hwin.2, h⟩
  · rw [if_neg hwin] at h
    simp at h

theorem fastStage_spec {c : Collab} {tr : Translations} {mn : MonthNames}
    {badi_year : Int} {sd ed : PyDate} {ev : Ev}
    (h : ev ∈ fastStage c tr mn badi_year sd ed) :
    ∃ o, sd ≤ o ∧ o < ed ∧
      ((ev = create_event_dict mn (translate_event tr "Fast" true false).name
          (translate_event tr "Fast" true false).desc 19 1 o
          (translate_event tr "Fast" true false).url) ∨
       (ev = create_event_dict mn (translate_event tr "Fast" false true).name
          (translate_event tr "Fast" false true).desc 19 19 o
          (translate_event tr "Fast" false true).url)) := by
  unfold fastStage at h
  cases h1 : (c.fromBadi badi_year 19 1).bind correctedDate with
  | none => rw [h1] at h; simp at h
  | some f1 =>
    rw [h1] at h
    dsimp only at h
    rcases List.mem_append.1 h with h' | h'
    · by_cases hwin : sd ≤ f1 ∧ f1 < ed
      · rw [if_pos hwin] at h'
        simp only [List.mem_singleton] at h'
        exact ⟨f1, hwin.1, hwin.2, Or.inl h'⟩
      · rw [if_neg hwin] at h'
        simp at h'
    · cases h2 : (c.fromBadi badi_year 19 19).bind correctedDate with
      | none => rw [h2] at h'; simp at h'
      | some f2 =>
        rw [h2] at h'
        dsimp only at h'
        by_cases hwin : sd ≤ f2 ∧ f2 < ed
        · rw [if_pos hwin] at h'
          simp only [List.mem_singleton] at h'
          exact ⟨f2, hwin.1, hwin.2, Or.inr h'⟩
        · rw [if_neg hwin] at h'
          simp at h'

theorem yearWindow_spec {c : Collab} {year badi_year : Int} {sd ed : PyDate}
    (h : yearWindow c year = some (badi_year, sd, ed)) :
    badi_year = c.badiYearOf year ∧ correctedDate (c.nawRuz badi_year) = some sd ∧
      correctedDate (c.nawRuz (badi_year + 1)) = some ed := by
  unfold yearWindow at h
  dsimp only at h
  cases h1 : correctedDate (c.nawRuz (c.badiYearOf year)) with
  | none => rw [h1] at h; simp at h
  | some s =>
    rw [h1] at h
    cases h2 : correctedDate (c.nawRuz (c.badiYearOf year + 1)) with
    | none => rw [h2] at h; simp at h
    | some e =>
      rw [h2] at h
      simp only [Option.some_bind, Option.bind_eq_bind, Option.some.injEq,
        Prod.mk.injEq] at h
      obtain ⟨hb, hs, he⟩ := h
      subst hb
      subst hs
      subst he
      exact ⟨rfl, h1, h2⟩

/-- If the whole pipeline returns a list, the year window resolved and the
output is the insertion sort of the four concatenated stages. -/
theorem get_events_unfold {c : Collab} {tr : Translations} {mn : MonthNames}
    {bes : List FixedEv} {year : Int} {evs : List Ev}
    (h : get_bahai_events_for_gregorian_year c tr mn bes year = some evs) :
    ∃ badi_year sd ed,
      yearWindow c year = some (badi_year, sd, ed) ∧
      evs = (fixedStage c tr mn bes badi_year sd ed ++ twinStage tr mn year sd ed ++
             ayyamStage c tr mn badi_year sd ed ++
             fastStage c tr mn badi_year sd ed).insertionSort
        (fun e1 e2 => evLE (translate_event tr "Naw-Rúz" false false).name e1 e2 = true) := by
  unfold get_bahai_events_for_gregorian_year assembleEvents at h
  cases hw : yearWindow c year with
  | none => rw [hw] at h; simp at h
  | some trip =>
    obtain ⟨bady, sd, ed⟩ := trip
    rw [hw] at h
    simp only [Option.some_bind, Option.bind_eq_bind, Option.map_some',
      Option.some.injEq] at h
    exact ⟨bady, sd, ed, rfl, h.symm⟩

/-- C5: every event in the returned sequence carries a Gregorian date inside
the half-open year window between the corrected Naw-Rúz dates. -/
theorem c5_window_invariant (c : Collab) (tr : Translations) (mn : MonthNames)
    (bes : List FixedEv) (year : Int) (evs : List Ev)
    (h : get_bahai_events_for_gregorian_year c tr mn bes year = some evs) :
    ∃ badi_year sd ed,
      yearWindow c year = some (badi_year, sd, ed) ∧
      badi_year = c.badiYearOf year ∧
      correctedDate (c.nawRuz badi_year) = some sd ∧
      correctedDate (c.nawRuz (badi_year + 1)) = some ed ∧
      ∀ ev ∈ evs, ∃ o, ev.gregorian_date = isoFormat o ∧ sd ≤ o ∧ o < ed := by
  obtain ⟨bady, sd, ed, hw, hevs⟩ := get_events_unfold h
  obtain ⟨hb, hs, he⟩ := yearWindow_spec hw
  refine ⟨bady, sd, ed, hw, hb, hs, he, ?_⟩
  intro ev hev
  rw [hevs, List.mem_insertionSort] at hev
  rcases List.mem_append.1 hev with hev' | hev'
  · rcases List.mem_append.1 hev' with hev'' | hev''
    · rcases List.mem_append.1 hev'' with hf | ht
      · obtain ⟨entry, _, hemit⟩ := fixedStage_subset hf
        obtain ⟨g, o, _, _, _, ho1, ho2, rfl⟩ := fixedEventEmit_spec hemit
        exact ⟨o, rfl, ho1, ho2⟩
      · obtain ⟨o, ho1, ho2, hcase⟩ := twinStage_spec ht
        rcases hcase with rfl | rfl
        · exact ⟨o, rfl, ho1, ho2⟩
        · exact ⟨o, rfl, ho1, ho2⟩
    · obtain ⟨m0, m19, i, _, _, _, hemit⟩ := ayyamStage_spec hev''
      obtain ⟨ho1, ho2, rfl⟩ := ayyamEmit_spec hemit
      exact ⟨m0 + ((i : Int) + 1 - 1), rfl, ho1, ho2⟩
  · obtain ⟨o, ho1, ho2, hcase⟩ := fastStage_spec hev'
    rcases hcase with rfl | rfl
    · exact ⟨o, rfl, ho1, ho2⟩
    · exact ⟨o, rfl, ho1, ho2⟩

/-- Witness for C5 at the concrete 2024 fixtures. -/
theorem c5_window_invariant_witness :
    ∃ badi_year sd ed,
      yearWindow testCollab 2024 = some (badi_year, sd, ed) ∧
      badi_year = testCollab.badiYearOf 2024 ∧
      correctedDate (testCollab.nawRuz badi_year) = some sd ∧
      correctedDate (testCollab.nawRuz (badi_year + 1)) = some ed ∧
      ∀ ev ∈ testEvents, ∃ o, ev.gregorian_date = isoFormat o ∧ sd ≤ o ∧ o < ed :=
  c5_window_invariant testCollab testTr testMn testFixed 2024 testEvents (by decide)

/-! ### Option-level destructors for the date constructors -/

theorem mkDate_some {y m d : Int} {o : PyDate} (h : mkDate y m d = some o) :
    o = toOrdinal y m d := by
  unfold mkDate at h
  split at h
  · exact (Option.some.inj h).symm
  · exact absurd h (by simp)

theorem addDays_some {o : PyDate} {k : Int} {r : PyDate} (h : addDays o k = some r) :
    r = o + k := by
  unfold addDays at h
  split at h
  · exact (Option.some.inj h).symm
  · exact absurd h (by simp)

/-- C6 core: whenever the day-boundary correction succeeds, the surfaced
civil date is the raw collaborator triple's ordinal plus exactly one day. -/
theorem correctedDate_some {g : Int × Int × Int} {o : PyDate}
    (h : correctedDate g = some o) : o = toOrdinal g.1 g.2.1 g.2.2 + 1 := by
  unfold correctedDate at h
  cases hm : mkDate g.1 g.2.1 g.2.2 with
  | none => rw [hm] at h; simp at h
  | some b =>
    rw [hm] at h
    simp only [Option.some_bind] at h
    rw [addDays_some h, mkDate_some hm]

theorem create_month_entry_spec {c : Collab} {tr : Translations} {mn : MonthNames}
    {badi_year month_num : Int} {me : MonthEntry}
    (h : create_month_entry c tr mn badi_year month_num = some me) :
    ∃ g o, c.fromBadi badi_year month_num 1 = some g ∧ correctedDate g = some o ∧
      me.badi_month = month_num ∧
      me.gregorian_date = isoFormat o ∧
      me.badi_month_name = mn month_num ++ " (" ++ tr.monthNames month_num ++ ")" := by
  unfold create_month_entry at h
  cases hg : c.fromBadi badi_year month_num 1 with
  | none => rw [hg] at h; simp at h
  | some g =>
    rw [hg] at h
    simp only [Option.bind_eq_bind, Option.some_bind] at h
    cases ho : correctedDate g with
    | none => rw [ho] at h; simp at h
    | some o =>
      rw [ho] at h
      simp only [Option.some_bind, Option.bind_eq_bind, Option.some.injEq] at h
      exact ⟨g, o, rfl, ho, by rw [← h], by rw [← h], by rw [← h]⟩

/-- C4: the intercalary expansion measures its length as the exact ordinal
difference between the corrected starts of month 19 and month 0, the start
plus that length is the month-19 start exactly, the length is the 4 or 5 the
Badí calendar collaborator yields, and one window-filtered event is emitted
per day `d ∈ [1, length]`, dated `month0Start + (d - 1)`. -/
theorem c4_intercalary_expansion (c : Collab) (tr : Translations) (mn : MonthNames)
    (badi_year : Int) (sd ed m0 m19 : PyDate)
    (h0 : (c.fromBadi badi_year 0 1).bind correctedDate = some m0)
    (h19 : (c.fromBadi badi_year 19 1).bind correctedDate = some m19)
    (hgap : m19 - m0 = 4 ∨ m19 - m0 = 5) :
    m0 + (m19 - m0) = m19 ∧
    (m19 - m0 = 4 ∨ m19 - m0 = 5) ∧
    ayyamStage c tr mn badi_year sd ed =
      (List.range (m19 - m0).toNat).foldl
        (fun acc i => acc ++ ayyamEmit tr mn sd ed m0 i) [] ∧
    (∀ ev ∈ ayyamStage c tr mn badi_year sd ed,
      ∃ i : Nat, i < (m19 - m0).toNat ∧ ev.badi_month = 0 ∧
        ev.badi_day = (i : Int) + 1 ∧ ev.gregorian_date = isoFormat (m0 + i) ∧
        sd ≤ m0 + i ∧ m0 + i < ed) := by
  refine ⟨by ring, hgap, ?_, ?_⟩
  · unfold ayyamStage
    rw [h0, h19]
  · intro ev hev
    obtain ⟨m0', m19', i, h0', h19', hi, hemit⟩ := ayyamStage_spec hev
    rw [h0] at h0'
    rw [h19] at h19'
    obtain rfl : m0 = m0' := Option.some.inj h0'
    obtain rfl : m19 = m19' := Option.some.inj h19'
    obtain ⟨hw1, hw2, rfl⟩ := ayyamEmit_spec hemit
    have hsimp : m0 + ((i : Int) + 1 - 1) = m0 + i := by ring
    rw [hsimp] at hw1 hw2
    exact ⟨i, hi, rfl, rfl, by rw [hsimp]; rfl, hw1, hw2⟩

/-- Witness for C4 at the concrete 2024 fixtures (gap of 4 days:
2025-02-25 to 2025-03-01). -/
theorem c4_intercalary_expansion_witness :
    toOrdinal 2025 2 25 + (toOrdinal 2025 3 1 - toOrdinal 2025 2 25) = toOrdinal 2025 3 1 ∧
    (toOrdinal 2025 3 1 - toOrdinal 2025 2 25 = 4 ∨
     toOrdinal 2025 3 1 - toOrdinal 2025 2 25 = 5) ∧
    ayyamStage testCollab testTr testMn 181 (toOrdinal 2024 3 21) (toOrdinal 2025 3 21) =
      (List.range (toOrdinal 2025 3 1 - toOrdinal 2025 2 25).toNat).foldl
        (fun acc i =>
          acc ++ ayyamEmit testTr testMn (toOrdinal 2024 3 21) (toOrdinal 2025 3 21)
            (toOrdinal 2025 2 25) i) [] ∧
    (∀ ev ∈ ayyamStage testCollab testTr testMn 181 (toOrdinal 2024 3 21)
        (toOrdinal 2025 3 21),
      ∃ i : Nat, i < (toOrdinal 2025 3 1 - toOrdinal 2025 2 25).toNat ∧
        ev.badi_month = 0 ∧ ev.badi_day = (i : Int) + 1 ∧
        ev.gregorian_date = isoFormat (toOrdinal 2025 2 25 + i) ∧
        toOrdinal 2024 3 21 ≤ toOrdinal 2025 2 25 + i ∧
        toOrdinal 2025 2 25 + i < toOrdinal 2025 3 21) :=
  c4_intercalary_expansion testCollab testTr testMn 181 (toOrdinal 2024 3 21)
    (toOrdinal 2025 3 21) (toOrdinal 2025 2 25) (toOrdinal 2025 3 1)
    (by decide) (by decide) (by decide)

/-- C6: the +1-day sunset correction is applied to every collaborator date,
exactly once: a successful correction returns the raw triple's ordinal plus
one; the raw triple (2024, 3, 20) surfaces as civil 2024-03-21; every month
entry's and every fixed event's date is the isoformat of raw + 1. -/
theorem c6_day_boundary_correction :
    (∀ (g : Int × Int × Int) (o : PyDate),
      correctedDate g = some o → o = toOrdinal g.1 g.2.1 g.2.2 + 1) ∧
    correctedDate (2024, 3, 20) = some (toOrdinal 2024 3 21) ∧
    isoFormat (toOrdinal 2024 3 21) = "2024-03-21" ∧
    (∀ (c : Collab) (tr : Translations) (mn : MonthNames) (badi_year month_num : Int)
        (me : MonthEntry),
      create_month_entry c tr mn badi_year month_num = some me →
      ∃ g, c.fromBadi badi_year month_num 1 = some g ∧
        me.gregorian_date = isoFormat (toOrdinal g.1 g.2.1 g.2.2 + 1)) ∧
    (∀ (c : Collab) (tr : Translations) (mn : MonthNames) (bes : List FixedEv)
        (badi_year : Int) (sd ed : PyDate) (ev : Ev),
      ev ∈ fixedStage c tr mn bes badi_year sd ed →
      ∃ entry g, entry ∈ bes ∧ c.fromBadi badi_year entry.month entry.day = some g ∧
        ev.gregorian_date = isoFormat (toOrdinal g.1 g.2.1 g.2.2 + 1)) := by
  refine ⟨?_, by decide, by decide, ?_, ?_⟩
  · intro g o h
    exact correctedDate_some h
  · intro c tr mn badi_year month_num me h
    obtain ⟨g, o, hg, ho, _, hdate, _⟩ := create_month_entry_spec h
    exact ⟨g, hg, by rw [hdate, correctedDate_some ho]⟩
  · intro c tr mn bes badi_year sd ed ev h
    obtain ⟨entry, hent, hemit⟩ := fixedStage_subset h
    obtain ⟨g, o, _, hg, ho, _, _, rfl⟩ := fixedEventEmit_spec hemit
    exact ⟨entry, g, hent, hg, by rw [correctedDate_some ho]; rfl⟩

/-- Witness for C6 at concrete inputs. -/
theorem c6_day_boundary_correction_witness :
    toOrdinal 2024 3 21 = toOrdinal (2024, 3, 20).1 (2024, 3, 20).2.1 (2024, 3, 20).2.2 + 1 ∧
    (∃ g, testCollab.fromBadi 181 1 1 = some g ∧
      ((create_month_entry testCollab testTr testMn 181 1).getD
          ⟨0, "", "", "", ""⟩).gregorian_date = isoFormat (toOrdinal g.1 g.2.1 g.2.2 + 1)) :=
  ⟨c6_day_boundary_correction.1 (2024, 3, 20) (toOrdinal 2024 3 21) (by decide),
   c6_day_boundary_correction.2.2.2.1 testCollab testTr testMn 181 1 _ (by decide)⟩

/-! ### Month-table lemmas (C7, C8) -/

theorem mapM_month_spec (c : Collab) (tr : Translations) (mn : MonthNames) (badi_year : Int) :
    ∀ (l : List Int) (res : List MonthEntry),
      l.mapM (create_month_entry c tr mn badi_year) = some res →
      res.map (fun me => me.badi_month) = l ∧
      ∀ me ∈ res, create_month_entry c tr mn badi_year me.badi_month = some me
  | [], res, h => by
    simp only [List.mapM_nil] at h
    obtain rfl : [] = res := by simpa using h
    exact ⟨rfl, by simp⟩
  | a :: t, res, h => by
    rw [List.mapM_cons] at h
    cases hfa : create_month_entry c tr mn badi_year a with
    | none => rw [hfa] at h; simp at h
    | some b =>
      rw [hfa] at h
      simp only [Option.bind_eq_bind, Option.some_bind] at h
      cases hmt : t.mapM (create_month_entry c tr mn badi_year) with
      | none => rw [hmt] at h; simp at h
      | some bs =>
        rw [hmt] at h
        simp only [Option.some_bind] at h
        obtain rfl : b :: bs = res := by simpa using h
        obtain ⟨ih1, ih2⟩ := mapM_month_spec c tr mn badi_year t bs hmt
        have hb : b.badi_month = a := by
          obtain ⟨g, o, _, _, hbm, _, _⟩ := create_month_entry_spec hfa
          exact hbm
        constructor
        · simp only [List.map_cons, hb, ih1]
        · intro me hme
          rcases List.mem_cons.1 hme with rfl | hme'
          · rw [hb]; exact hfa
          · exact ih2 me hme'

theorem mapM_eq_none_of_mem {α β : Type} (f : α → Option β) :
    ∀ (l : List α) (a : α), a ∈ l → f a = none → l.mapM f = none
  | [], a, ha, _ => absurd ha (List.not_mem_nil a)
  | b :: t, a, ha, hfa => by
    rw [List.mapM_cons]
    rcases List.mem_cons.1 ha with rfl | ha'
    · rw [hfa]
      rfl
    · cases hfb : f b with
      | none => rfl
      | some v =>
        simp only [Option.bind_eq_bind, Option.some_bind]
        rw [mapM_eq_none_of_mem f t a ha' hfa]
        rfl

/-- C7: when the months endpoint succeeds it returns exactly 20 entries, one
per Badí month 1..19 followed by month 0, each carrying the month number,
the combined localized month name, and the corrected Gregorian start date of
the month's first day. -/
theorem c7_month_starts (c : Collab) (tr : Translations) (mn : MonthNames)
    (year : Int) (ms : List MonthEntry)
    (h : get_bahai_months c tr mn year = some ms) :
    ms.length = 20 ∧
    ms.map (fun me => me.badi_month) = (List.range 19).map (fun i => (i : Int) + 1) ++ [0] ∧
    ∀ me ∈ ms, ∃ g o,
      c.fromBadi (c.badiYearOf year) me.badi_month 1 = some g ∧
      correctedDate g = some o ∧
      me.gregorian_date = isoFormat o ∧
      me.badi_month_name = mn me.badi_month ++ " (" ++ tr.monthNames me.badi_month ++ ")" := by
  unfold get_bahai_months at h
  dsimp only at h
  obtain ⟨hmap, hall⟩ := mapM_month_spec c tr mn (c.badiYearOf year) _ ms h
  refine ⟨?_, hmap, ?_⟩
  · have hlen := congrArg List.length hmap
    simpa using hlen
  · intro me hme
    obtain ⟨g, o, hg, ho, _, hdate, hname⟩ := create_month_entry_spec (hall me hme)
    exact ⟨g, o, hg, ho, hdate, hname⟩

/-- Witness for C7 with a collaborator that resolves every month. -/
theorem c7_month_starts_witness :
    ((get_bahai_months fullCollab testTr testMn 2024).getD []).length = 20 ∧
    ((get_bahai_months fullCollab testTr testMn 2024).getD []).map
        (fun me => me.badi_month) =
      (List.range 19).map (fun i => (i : Int) + 1) ++ [0] ∧
    ∀ me ∈ (get_bahai_months fullCollab testTr testMn 2024).getD [], ∃ g o,
      fullCollab.fromBadi (fullCollab.badiYearOf 2024) me.badi_month 1 = some g ∧
      correctedDate g = some o ∧
      me.gregorian_date = isoFormat o ∧
      me.badi_month_name = testMn me.badi_month ++ " (" ++
        testTr.monthNames me.badi_month ++ ")" :=
  c7_month_starts fullCollab testTr testMn 2024 _ (by decide)

/-- C8 counterexample: with a collaborator that fails for month 5 but
succeeds for months 1 and 19 (and 0), `get_bahai_months` returns nothing at
all — the failing month is not omitted and processing does not continue,
because the months endpoint has no `try/except`. -/
theorem c8_single_failure_counterexample :
    create_month_entry testCollab testTr testMn 181 5 = none ∧
    (create_month_entry testCollab testTr testMn 181 1).isSome = true ∧
    (create_month_entry testCollab testTr testMn 181 19).isSome = true ∧
    (create_month_entry testCollab testTr testMn 181 0).isSome = true ∧
    get_bahai_months testCollab testTr testMn 2024 = none :=
  ⟨by decide, by decide, by decide, by decide, by decide⟩

/-- C8 amended: if the collaborator cannot resolve any one of the twenty
months, the exception propagates and the whole month-table computation
fails; no partial list is produced. -/
theorem c8_month_failure_aborts (c : Collab) (tr : Translations) (mn : MonthNames)
    (year m : Int)
    (hm : m ∈ (List.range 19).map (fun i => (i : Int) + 1) ++ [0])
    (hf : create_month_entry c tr mn (c.badiYearOf year) m = none) :
    get_bahai_months c tr mn year = none := by
  unfold get_bahai_months
  dsimp only
  exact mapM_eq_none_of_mem _ _ m hm hf

/-- Witness for the amended C8 at the concrete fixtures. -/
theorem c8_month_failure_aborts_witness :
    get_bahai_months testCollab testTr testMn 2024 = none :=
  c8_month_failure_aborts testCollab testTr testMn 2024 5 (by decide) (by decide)

/-! ### Birth-event single-source lemmas (C9) -/

theorem fixedStage_filter_aux (c : Collab) (tr : Translations) (mn : MonthNames)
    (badi_year : Int) (sd ed : PyDate) :
    ∀ (bes : List FixedEv) (acc : List Ev),
      bes.foldl (fun acc ev => acc ++ fixedEventEmit c tr mn badi_year sd ed ev) acc =
      (bes.filter (fun e => !(e.name == "Birth of the Báb" ||
          e.name == "Birth of Bahá\x27u\x27lláh"))).foldl
        (fun acc ev => acc ++ fixedEventEmit c tr mn badi_year sd ed ev) acc
  | [], _ => rfl
  | e :: t, acc => by
    rw [List.foldl_cons, List.filter_cons]
    by_cases hb : e.name = "Birth of the Báb" ∨ e.name = "Birth of Bahá\x27u\x27lláh"
    · have hemit : fixedEventEmit c tr mn badi_year sd ed e = [] := by
        unfold fixedEventEmit
        rw [if_pos hb]
      have hpred : (!(e.name == "Birth of the Báb" ||
          e.name == "Birth of Bahá\x27u\x27lláh")) = false := by
        rcases hb with h | h <;> simp [h]
      rw [hemit, List.append_nil, hpred]
      simp only [Bool.false_eq_true, if_false]
      exact fixedStage_filter_aux c tr mn badi_year sd ed t acc
    · push_neg at hb
      have hpred : (!(e.name == "Birth of the Báb" ||
          e.name == "Birth of Bahá\x27u\x27lláh")) = true := by
        simp [hb.1, hb.2]
      rw [hpred]
      simp only [if_true]
      rw [List.foldl_cons]
      exact fixedStage_filter_aux c tr mn badi_year sd ed t
        (acc ++ fixedEventEmit c tr mn badi_year sd ed e)

/-- The fixed-event path never processes the two birth entries: filtering
them out of the table does not change its output. -/
theorem fixedStage_skips_births (c : Collab) (tr : Translations) (mn : MonthNames)
    (bes : List FixedEv) (badi_year : Int) (sd ed : PyDate) :
    fixedStage c tr mn bes badi_year sd ed =
    fixedStage c tr mn (bes.filter (fun e => !(e.name == "Birth of the Báb" ||
        e.name == "Birth of Bahá\x27u\x27lláh"))) badi_year sd ed := by
  unfold fixedStage
  exact fixedStage_filter_aux c tr mn badi_year sd ed bes []

theorem twinStage_countP_le_left (tr : Translations) (mn : MonthNames) (year : Int)
    (sd ed : PyDate) (p : Ev → Bool)
    (hbah : ∀ o : PyDate, p (create_event_dict mn
        (translate_event tr "Birth of Bahá\x27u\x27lláh" false false).name
        (translate_event tr "Birth of Bahá\x27u\x27lláh" false false).desc 12 6 o
        (translate_event tr "Birth of Bahá\x27u\x27lláh" false false).url) = false) :
    (twinStage tr mn year sd ed).countP p ≤ 1 := by
  unfold twinStage
  cases hc : (calculate_twin_holy_days year).bind (fun pr =>
      (fromIso pr.1).bind (fun bab => (fromIso pr.2).map (fun bah => (bab, bah)))) with
  | none => simp
  | some pr =>
    obtain ⟨bab, bah⟩ := pr
    dsimp only
    rw [List.countP_append]
    have hl1 : (if sd ≤ bab ∧ bab < ed then
        [create_event_dict mn (translate_event tr "Birth of the Báb" false false).name
          (translate_event tr "Birth of the Báb" false false).desc 12 5 bab
          (translate_event tr "Birth of the Báb" false false).url]
      else []).countP p ≤ 1 := by
      split
      · exact le_trans (List.countP_le_length p) (by simp)
      · simp
    have hl2 : (if sd ≤ bah ∧ bah < ed then
        [create_event_dict mn (translate_event tr "Birth of Bahá\x27u\x27lláh" false false).name
          (translate_event tr "Birth of Bahá\x27u\x27lláh" false false).desc 12 6 bah
          (translate_event tr "Birth of Bahá\x27u\x27lláh" false false).url]
      else []).countP p = 0 := by
      split
      · simp [List.countP_cons, hbah bah]
      · simp
    omega

theorem twinStage_countP_le_right (tr : Translations) (mn : MonthNames) (year : Int)
    (sd ed : PyDate) (p : Ev → Bool)
    (hbab : ∀ o : PyDate, p (create_event_dict mn
        (translate_event tr "Birth of the Báb" false false).name
        (translate_event tr "Birth of the Báb" false false).desc 12 5 o
        (translate_event tr "Birth of the Báb" false false).url) = false) :
    (twinStage tr mn year sd ed).countP p ≤ 1 := by
  unfold twinStage
  cases hc : (calculate_twin_holy_days year).bind (fun pr =>
      (fromIso pr.1).bind (fun bab => (fromIso pr.2).map (fun bah => (bab, bah)))) with
  | none => simp
  | some pr =>
    obtain ⟨bab, bah⟩ := pr
    dsimp only
    rw [List.countP_append]
    have hl1 : (if sd ≤ bab ∧ bab < ed then
        [create_event_dict mn (translate_event tr "Birth of the Báb" false false).name
          (translate_event tr "Birth of the Báb" false false).desc 12 5 bab
          (translate_event tr "Birth of the Báb" false false).url]
      else []).countP p = 0 := by
      split
      · simp [List.countP_cons, hbab bab]
      · simp
    have hl2 : (if sd ≤ bah ∧ bah < ed then
        [create_event_dict mn (translate_event tr "Birth of Bahá\x27u\x27lláh" false false).name
          (translate_event tr "Birth of Bahá\x27u\x27lláh" false false).desc 12 6 bah
          (translate_event tr "Birth of Bahá\x27u\x27lláh" false false).url]
      else []).countP p ≤ 1 := by
      split
      · exact le_trans (List.countP_le_length p) (by simp)
      · simp
    omega

/-- C9: events named for the two births are never produced by the fixed-event
table-driven path (filtering those entries from the table leaves its output
unchanged), and — provided the translation table does not map any other
event's key onto the two birth display names — each birth event occurs at
most once in the output. -/
theorem c9_births_resolved_once (c : Collab) (tr : Translations) (mn : MonthNames)
    (bes : List FixedEv) (year : Int) (evs : List Ev)
    (h : get_bahai_events_for_gregorian_year c tr mn bes year = some evs)
    (hne : (translate_event tr "Birth of the Báb" false false).name ≠
           (translate_event tr "Birth of Bahá\x27u\x27lláh" false false).name)
    (hfix : ∀ entry ∈ bes,
      ¬(entry.name = "Birth of the Báb" ∨ entry.name = "Birth of Bahá\x27u\x27lláh") →
      (translate_event tr entry.name false false).name ≠
        (translate_event tr "Birth of the Báb" false false).name ∧
      (translate_event tr entry.name false false).name ≠
        (translate_event tr "Birth of Bahá\x27u\x27lláh" false false).name)
    (hay : (if (translate_event tr "Ayyám-i-Há" false false).name = "" then "Ayyám-i-Há"
            else (translate_event tr "Ayyám-i-Há" false false).name) ≠
             (translate_event tr "Birth of the Báb" false false).name ∧
           (if (translate_event tr "Ayyám-i-Há" false false).name = "" then "Ayyám-i-Há"
            else (translate_event tr "Ayyám-i-Há" false false).name) ≠
             (translate_event tr "Birth of Bahá\x27u\x27lláh" false false).name)
    (hf1 : (translate_event tr "Fast" true false).name ≠
             (translate_event tr "Birth of the Báb" false false).name ∧
           (translate_event tr "Fast" true false).name ≠
             (translate_event tr "Birth of Bahá\x27u\x27lláh" false false).name)
    (hf2 : (translate_event tr "Fast" false true).name ≠
             (translate_event tr "Birth of the Báb" false false).name ∧
           (translate_event tr "Fast" false true).name ≠
             (translate_event tr "Birth of Bahá\x27u\x27lláh" false false).name) :
    (∀ (bady : Int) (sd ed : PyDate),
      fixedStage c tr mn bes bady sd ed =
      fixedStage c tr mn (bes.filter (fun e => !(e.name == "Birth of the Báb" ||
          e.name == "Birth of Bahá\x27u\x27lláh"))) bady sd ed) ∧
    evs.countP (fun e =>
      e.event == (translate_event tr "Birth of the Báb" false false).name) ≤ 1 ∧
    evs.countP (fun e =>
      e.event == (translate_event tr "Birth of Bahá\x27u\x27lláh" false false).name) ≤ 1 := by
  refine ⟨fun bady sd ed => fixedStage_skips_births c tr mn bes bady sd ed, ?_, ?_⟩
  all_goals
    obtain ⟨bady, sd, ed, hw, hevs⟩ := get_events_unfold h
    rw [hevs]
  · -- count of events carrying the Báb birth display name
    rw [(List.perm_insertionSort _ _).countP_eq]
    rw [List.countP_append, List.countP_append, List.countP_append]
    have hfix0 : (fixedStage c tr mn bes bady sd ed).countP (fun e =>
        e.event == (translate_event tr "Birth of the Báb" false false).name) = 0 := by
      refine List.countP_eq_zero.2 (fun ev hev => ?_)
      obtain ⟨entry, hent, hemit⟩ := fixedStage_subset hev
      obtain ⟨g, o, hnb, _, _, _, _, rfl⟩ := fixedEventEmit_spec hemit
      simp [create_event_dict, beq_iff_eq, (hfix entry hent hnb).1]
    have hay0 : (ayyamStage c tr mn bady sd ed).countP (fun e =>
        e.event == (translate_event tr "Birth of the Báb" false false).name) = 0 := by
      refine List.countP_eq_zero.2 (fun ev hev => ?_)
      obtain ⟨m0, m19, i, _, _, _, hemit⟩ := ayyamStage_spec hev
      obtain ⟨_, _, rfl⟩ := ayyamEmit_spec hemit
      simp [create_event_dict, beq_iff_eq, hay.1]
    have hfa0 : (fastStage c tr mn bady sd ed).countP (fun e =>
        e.event == (translate_event tr "Birth of the Báb" false false).name) = 0 := by
      refine List.countP_eq_zero.2 (fun ev hev => ?_)
      obtain ⟨o, _, _, hcase⟩ := fastStage_spec hev
      rcases hcase with rfl | rfl
      · simp [create_event_dict, beq_iff_eq, hf1.1]
      · simp [create_event_dict, beq_iff_eq, hf2.1]
    have htw := twinStage_countP_le_left tr mn year sd ed (fun e =>
        e.event == (translate_event tr "Birth of the Báb" false false).name)
      (fun o => by simp [create_event_dict, beq_iff_eq]; exact fun he => hne he.symm)
    omega
  · -- count of events carrying the Bahá'u'lláh birth display name
    rw [(List.perm_insertionSort _ _).countP_eq]
    rw [List.countP_append, List.countP_append, List.countP_append]
    have hfix0 : (fixedStage c tr mn bes bady sd ed).countP (fun e =>
        e.event == (translate_event tr "Birth of Bahá\x27u\x27lláh" false false).name) = 0 := by
      refine List.countP_eq_zero.2 (fun ev hev => ?_)
      obtain ⟨entry, hent, hemit⟩ := fixedStage_subset hev
      obtain ⟨g, o, hnb, _, _, _, _, rfl⟩ := fixedEventEmit_spec hemit
      simp [create_event_dict, beq_iff_eq, (hfix entry hent hnb).2]
    have hay0 : (ayyamStage c tr mn bady sd ed).countP (fun e =>
        e.event == (translate_event tr "Birth of Bahá\x27u\x27lláh" false false).name) = 0 := by
      refine List.countP_eq_zero.2 (fun ev hev => ?_)
      obtain ⟨m0, m19, i, _, _, _, hemit⟩ := ayyamStage_spec hev
      obtain ⟨_, _, rfl⟩ := ayyamEmit_spec hemit
      simp [create_event_dict, beq_iff_eq, hay.2]
    have hfa0 : (fastStage c tr mn bady sd ed).countP (fun e =>
        e.event == (translate_event tr "Birth of Bahá\x27u\x27lláh" false false).name) = 0 := by
      refine List.countP_eq_zero.2 (fun ev hev => ?_)
      obtain ⟨o, _, _, hcase⟩ := fastStage_spec hev
      rcases hcase with rfl | rfl
      · simp [create_event_dict, beq_iff_eq, hf1.2]
      · simp [create_event_dict, beq_iff_eq, hf2.2]
    have htw := twinStage_countP_le_right tr mn year sd ed (fun e =>
        e.event == (translate_event tr "Birth of Bahá\x27u\x27lláh" false false).name)
      (fun o => by simp [create_event_dict, beq_iff_eq]; exact hne)
    omega

/-- Witness for C9 at the concrete 2024 fixtures. -/
theorem c9_births_resolved_once_witness :
    (∀ (bady : Int) (sd ed : PyDate),
      fixedStage testCollab testTr testMn testFixed bady sd ed =
      fixedStage testCollab testTr testMn
        (testFixed.filter (fun e => !(e.name == "Birth of the Báb" ||
            e.name == "Birth of Bahá\x27u\x27lláh"))) bady sd ed) ∧
    testEvents.countP (fun e =>
      e.event == (translate_event testTr "Birth of the Báb" false false).name) ≤ 1 ∧
    testEvents.countP (fun e =>
      e.event == (translate_event testTr "Birth of Bahá\x27u\x27lláh" false false).name) ≤ 1 :=
  c9_births_resolved_once testCollab testTr testMn testFixed 2024 testEvents
    (by decide) (by decide) (by decide) (by decide) (by decide) (by decide)

/-- C3: the returned event list is sorted by the composite key
`(tier, gregorianDate)` with tier 0 for Naw-Rúz, tier 2 for the month-19
day-19 event and tier 1 otherwise, ties broken by the zero-padded ISO date
string; consequently, when the assembled list contains exactly one
Naw-Rúz-named event and at most one month-19 day-19 event (not named
Naw-Rúz), the sorted output contains exactly one Naw-Rúz event, placed
first, and the last-day-of-Fasting event, if present, is last. -/
theorem c3_composite_sort_order (c : Collab) (tr : Translations) (mn : MonthNames)
    (bes : List FixedEv) (year : Int) (l evs : List Ev)
    (hasm : assembleEvents c tr mn bes year = some l)
    (hget : get_bahai_events_for_gregorian_year c tr mn bes year = some evs)
    (h1 : l.countP (fun e =>
        e.event == (translate_event tr "Naw-Rúz" false false).name) = 1)
    (h2 : l.countP (fun e => decide (e.badi_month = 19 ∧ e.badi_day = 19)) ≤ 1)
    (h3 : ∀ e ∈ l, e.badi_month = 19 ∧ e.badi_day = 19 →
        e.event ≠ (translate_event tr "Naw-Rúz" false false).name) :
    evs.Pairwise (fun a b =>
      keyLE (sort_key (translate_event tr "Naw-Rúz" false false).name a)
            (sort_key (translate_event tr "Naw-Rúz" false false).name b) = true) ∧
    evs.countP (fun e =>
      e.event == (translate_event tr "Naw-Rúz" false false).name) = 1 ∧
    (∃ x rest, evs = x :: rest ∧
      x.event = (translate_event tr "Naw-Rúz" false false).name) ∧
    (∀ x ∈ evs, x.badi_month = 19 ∧ x.badi_day = 19 →
      ∀ hne : evs ≠ [], x = evs.getLast hne) := by
  set nb := (translate_event tr "Naw-Rúz" false false).name with hnbdef
  have hevs : evs = l.insertionSort (fun e1 e2 => evLE nb e1 e2 = true) := by
    unfold get_bahai_events_for_gregorian_year at hget
    rw [hasm] at hget
    simp only [Option.map_some', Option.some.injEq] at hget
    exact hget.symm
  have hperm : evs.Perm l := hevs ▸ List.perm_insertionSort _ l
  have hsorted : evs.Pairwise (fun a b => evLE nb a b = true) := by
    rw [hevs]
    haveI : IsTotal Ev (fun e1 e2 => evLE nb e1 e2 = true) :=
      ⟨fun a b => evLE_total nb a b⟩
    haveI : IsTrans Ev (fun e1 e2 => evLE nb e1 e2 = true) :=
      ⟨fun a b c0 => evLE_trans nb a b c0⟩
    exact List.sorted_insertionSort _ l
  have hcount : evs.countP (fun e => e.event == nb) = 1 := by
    rw [hperm.countP_eq]
    exact h1
  have hne_nil : evs ≠ [] := by
    intro hnil
    rw [hnil] at hcount
    simp at hcount
  obtain ⟨x, rest, hx⟩ : ∃ x rest, evs = x :: rest := by
    cases evs with
    | nil => exact absurd rfl hne_nil
    | cons a t => exact ⟨a, t, rfl⟩
  obtain ⟨z, hzmem, hzp⟩ : ∃ z ∈ evs, (fun e => e.event == nb) z = true :=
    List.countP_pos_iff.1 (by rw [hcount]; norm_num)
  have hzname : z.event = nb := by simpa [beq_iff_eq] using hzp
  have hxname : x.event = nb := by
    by_contra hxn
    have hztier : (sort_key nb z).1 = 0 := (sort_key_fst_eq_zero_iff nb z).2 hzname
    rcases List.mem_cons.1 (hx ▸ hzmem) with rfl | hz'
    · exact hxn hzname
    · have hpw := hx ▸ hsorted
      have hrel := (List.pairwise_cons.1 hpw).1 z hz'
      have hle : (sort_key nb x).1 ≤ (sort_key nb z).1 := keyLE_fst_le hrel
      rw [hztier] at hle
      exact hxn ((sort_key_fst_eq_zero_iff nb x).1 (Nat.le_zero.1 hle))
  refine ⟨hsorted, hcount, ⟨x, rest, hx, hxname⟩, ?_⟩
  intro w hw hw19 hne
  have hgmem : evs.getLast hne ∈ evs := List.getLast_mem hne
  have hwname : w.event ≠ nb := h3 w (hperm.mem_iff.1 hw) hw19
  have hwtier : (sort_key nb w).1 = 2 := (sort_key_fst_eq_two_iff nb w).2 ⟨hwname, hw19⟩
  rcases pairwise_getLast evs hne hsorted w hw with heq | hrel
  · exact heq
  · have hle : (sort_key nb w).1 ≤ (sort_key nb (evs.getLast hne)).1 := keyLE_fst_le hrel
    rw [hwtier] at hle
    have hgt2 : (sort_key nb (evs.getLast hne)).1 = 2 :=
      le_antisymm (sort_key_fst_le_two nb _) hle
    obtain ⟨hgname, hg19⟩ := (sort_key_fst_eq_two_iff nb _).1 hgt2
    have hcount2 : evs.countP (fun e => decide (e.badi_month = 19 ∧ e.badi_day = 19)) ≤ 1 := by
      rw [hperm.countP_eq]
      exact h2
    by_contra hwg
    have h2le := two_le_countP (fun e => decide (e.badi_month = 19 ∧ e.badi_day = 19))
      evs w (evs.getLast hne) hw hgmem hwg
      (by rw [decide_eq_true_eq]; exact hw19) (by rw [decide_eq_true_eq]; exact hg19)
    omega

/-- Witness for C3 at the concrete 2024 fixtures. -/
theorem c3_composite_sort_order_witness :
    testEvents.Pairwise (fun a b =>
      keyLE (sort_key (translate_event testTr "Naw-Rúz" false false).name a)
            (sort_key (translate_event testTr "Naw-Rúz" false false).name b) = true) ∧
    testEvents.countP (fun e =>
      e.event == (translate_event testTr "Naw-Rúz" false false).name) = 1 ∧
    (∃ x rest, testEvents = x :: rest ∧
      x.event = (translate_event testTr "Naw-Rúz" false false).name) ∧
    (∀ x ∈ testEvents, x.badi_month = 19 ∧ x.badi_day = 19 →
      ∀ hne : testEvents ≠ [], x = testEvents.getLast hne) :=
  c3_composite_sort_order testCollab testTr testMn testFixed 2024 testAssembled testEvents
    (by decide) (by decide) (by decide) (by decide) (by decide)

example : toOrdinal 1 1 1 = 1 := by decide
example : fromOrdinal 1 = (1, 1, 1) := by decide
example : toOrdinal 9999 12 31 = 3652059 := by decide
example : fromOrdinal 3652059 = (9999, 12, 31) := by decide
example : fromOrdinal (toOrdinal 2024 10 18) = (2024, 10, 18) := by decide
example : fromIso "2024-10-18" = some (toOrdinal 2024 10 18) := by decide
example : isoFormat (toOrdinal 2024 3 21) = "2024-03-21" := by decide
example : calculate_twin_holy_days 2024 = some ("2024-10-18", "2024-10-19") := by decide
example : closest_year 2070 = 2064 := by decide
example : calculate_twin_holy_days 2070 = some ("2071-08-28", "2071-08-29") := by decide

end BadiBackend
